import Mathlib

/-!
# QmSystem: display state, device mode and activity

A shallow embedding of `system/qmdisplaystate.cpp`, `system/qmdevicemode.cpp` and
`system/qmactivity.cpp`.  The private objects (`priv`), the system bus and the GConf client are
explicit values that every operation takes and returns.

Parts of the program that live outside these three files are parameters of the model:

* the element type of the `connectCount` arrays (declared in the private headers) is a
  `CountTy`;
* the build flag `HAVE_MCE` is a `Bool`;
* the MCE names (`MCE_DISPLAY_SIG`, `MCE_DISPLAY_OFF_REQ`, ...) and the GConf keys
  (`BRIGHTNESS_KEY`, ...) are kept symbolic, one constructor per macro;
* the three display state strings are the fields of `MceDisplayNames`;
* the outcome of every bus request and the replies to method calls are arguments.
-/

namespace MeeGo

/-! ## Machine integers of the connection counters -/

/-- Integer type of the elements of `connectCount`.  The arrays are declared in the private
headers, so the type is a parameter: C `int`, or `size_t` on a 32-bit or a 64-bit target. -/
inductive CountTy
  | int
  | size_t32
  | size_t64
  deriving DecidableEq, Repr

/-- Smallest value of the counter type. -/
def CountTy.minVal : CountTy → Int
  | .int => -2147483648
  | .size_t32 => 0
  | .size_t64 => 0

/-- Largest value of the counter type. -/
def CountTy.maxVal : CountTy → Int
  | .int => 2147483647
  | .size_t32 => 4294967295
  | .size_t64 => 18446744073709551615

/-- Reduction of a mathematical integer to the counter type: modulo `2^32` or `2^64` for
`size_t`, two's complement for `int` (C leaves the overflow of `int` undefined; the model
takes the result that two's complement targets produce). -/
def CountTy.wrap : CountTy → Int → Int
  | .int, x => (x + 2147483648) % 4294967296 - 2147483648
  | .size_t32, x => x % 4294967296
  | .size_t64, x => x % 18446744073709551616

/-- The value is representable in the counter type. -/
def CountTy.inRange (ty : CountTy) (x : Int) : Prop :=
  ty.minVal ≤ x ∧ x ≤ ty.maxVal

instance (ty : CountTy) (x : Int) : Decidable (ty.inRange x) := by
  unfold CountTy.inRange
  exact inferInstance

/-! ## The system bus -/

/-- MCE signals the three classes connect to. -/
inductive MceSignal
  | MCE_DISPLAY_SIG
  | MCE_RADIO_STATES_SIG
  | MCE_PSM_STATE_SIG
  | MCE_INACTIVITY_SIG
  deriving DecidableEq, Repr

/-- MCE request methods the three classes call. -/
inductive MceMethod
  | MCE_DISPLAY_STATUS_GET
  | MCE_DISPLAY_OFF_REQ
  | MCE_DISPLAY_DIM_REQ
  | MCE_DISPLAY_ON_REQ
  | MCE_PREVENT_BLANK_REQ
  | MCE_CANCEL_PREVENT_BLANK_REQ
  | MCE_RADIO_STATES_GET
  | MCE_RADIO_STATES_CHANGE_REQ
  | MCE_PSM_STATE_GET
  | MCE_INACTIVITY_STATUS_GET
  deriving DecidableEq, Repr

/-- A request sent to the system bus. -/
inductive BusRequest
  | connect (sig : MceSignal)
  | disconnect (sig : MceSignal)
  | call (method : MceMethod) (args : List Nat)
  deriving DecidableEq, Repr

/-- The system bus as the program sees it: the signals whose delivery is established, and
every request issued so far, oldest first. -/
structure SystemBus where
  connected : List MceSignal
  requests : List BusRequest
  deriving DecidableEq, Repr

/-- Bus call `QDBusConnection::systemBus().connect(MCE_SERVICE, MCE_SIGNAL_PATH,
MCE_SIGNAL_IF, sig, ...)` with outcome `ok`. -/
def SystemBus.connect (bus : SystemBus) (sig : MceSignal) (ok : Bool) : SystemBus :=
  { connected := if ok then sig :: bus.connected else bus.connected
    requests := bus.requests ++ [BusRequest.connect sig] }

/-- Bus call `QDBusConnection::systemBus().disconnect(...)` with outcome `ok`. -/
def SystemBus.disconnect (bus : SystemBus) (sig : MceSignal) (ok : Bool) : SystemBus :=
  { connected := if ok then bus.connected.filter (fun x => x ≠ sig) else bus.connected
    requests := bus.requests ++ [BusRequest.disconnect sig] }

/-- A method call on the MCE request interface. -/
def SystemBus.call (bus : SystemBus) (method : MceMethod) (args : List Nat) : SystemBus :=
  { connected := bus.connected
    requests := bus.requests ++ [BusRequest.call method args] }

/-- The subscription to `sig` that the requests in a log leave behind: the last `connect` or
`disconnect` request for `sig` decides, and there is none before the first. -/
def subscribedIn (sig : MceSignal) (log : List BusRequest) : Bool :=
  log.foldl
    (fun b r =>
      if r = BusRequest.connect sig then true
      else if r = BusRequest.disconnect sig then false
      else b)
    false

/-! ## Qt signal signatures -/

/-- Qt macro `SIGNAL(a)` of Qt 4: the signature with the code `2` in front. -/
def SIGNAL (a : String) : String := "2" ++ a

/-- Normalised `SIGNAL(displayStateChanged(MeeGo::QmDisplayState::DisplayState))`. -/
def SIGNAL_displayStateChanged : String :=
  SIGNAL "displayStateChanged(MeeGo::QmDisplayState::DisplayState)"

/-- Normalised `SIGNAL(deviceModeChanged(MeeGo::QmDeviceMode::DeviceMode))`. -/
def SIGNAL_deviceModeChanged : String :=
  SIGNAL "deviceModeChanged(MeeGo::QmDeviceMode::DeviceMode)"

/-- Normalised `SIGNAL(devicePSMStateChanged(MeeGo::QmDeviceMode::PSMState))`. -/
def SIGNAL_devicePSMStateChanged : String :=
  SIGNAL "devicePSMStateChanged(MeeGo::QmDeviceMode::PSMState)"

/-- Normalised `SIGNAL(activityChanged(MeeGo::QmActivity::Activity))`. -/
def SIGNAL_activityChanged : String :=
  SIGNAL "activityChanged(MeeGo::QmActivity::Activity)"

/-! ## The GConf settings store -/

/-- GConf keys used by the display state and device mode classes. -/
inductive GConfKey
  | MAX_BRIGHTNESS_KEY
  | BRIGHTNESS_KEY
  | BLANK_TIMEOUT_KEY
  | DIM_TIMEOUT_KEY
  | POSSIBLE_DIM_LIST_KEY
  | BLANKING_CHARGING_KEY
  | FORCE_POWER_SAVING
  | ENABLE_POWER_SAVING
  | THRESHOLDS
  | THRESHOLD
  deriving DecidableEq, Repr

/-- A value stored under a GConf key. -/
inductive GConfValue
  | int (n : Int)
  | bool (b : Bool)
  | list (l : List Int)
  deriving DecidableEq, Repr

/-- One access to the settings store. -/
inductive GConfAccess
  | get (key : GConfKey)
  | set (key : GConfKey) (value : GConfValue)
  deriving DecidableEq, Repr

/-- The GConf client: the stored entries (the first entry of a key is its value), the keys
whose reads report a `GError`, the keys whose writes fail, and every access made so far,
oldest first. -/
structure GConfClient where
  entries : List (GConfKey × GConfValue)
  readErrors : List GConfKey
  writeErrors : List GConfKey
  accesses : List GConfAccess
  deriving DecidableEq, Repr

/-- The accesses of a log that are writes. -/
def GConfClient.writes (gc : GConfClient) : List GConfAccess :=
  gc.accesses.filter
    (fun a =>
      match a with
      | GConfAccess.set _ _ => true
      | GConfAccess.get _ => false)

/-- Record a read of `key`. -/
def GConfClient.noteGet (gc : GConfClient) (key : GConfKey) : GConfClient :=
  { gc with accesses := gc.accesses ++ [GConfAccess.get key] }

/-- The outcome of `gconf_client_get_int(gc, key, &error)`: the returned integer and whether
`error` was set.  An unset key reads as 0 without an error; a read failure or a value of
another type sets the error and reads as 0. -/
def gconf_client_get_int (gc : GConfClient) (key : GConfKey) : (Int × Bool) × GConfClient :=
  if key ∈ gc.readErrors then ((0, true), gc.noteGet key)
  else
    match gc.entries.lookup key with
    | some (GConfValue.int n) => ((n, false), gc.noteGet key)
    | some _ => ((0, true), gc.noteGet key)
    | none => ((0, false), gc.noteGet key)

/-- The outcome of `gconf_client_get_bool(gc, key, &error)`: the returned flag and whether
`error` was set.  An unset key reads as `FALSE` without an error. -/
def gconf_client_get_bool (gc : GConfClient) (key : GConfKey) : (Bool × Bool) × GConfClient :=
  if key ∈ gc.readErrors then ((false, true), gc.noteGet key)
  else
    match gc.entries.lookup key with
    | some (GConfValue.bool b) => ((b, false), gc.noteGet key)
    | some _ => ((false, true), gc.noteGet key)
    | none => ((false, false), gc.noteGet key)

/-- The outcome of `gconf_client_get_list(gc, key, GCONF_VALUE_INT, &error)`: the returned
list (`NULL` is the empty list) and whether `error` was set. -/
def gconf_client_get_list (gc : GConfClient) (key : GConfKey) :
    (List Int × Bool) × GConfClient :=
  if key ∈ gc.readErrors then (([], true), gc.noteGet key)
  else
    match gc.entries.lookup key with
    | some (GConfValue.list l) => ((l, false), gc.noteGet key)
    | some _ => (([], true), gc.noteGet key)
    | none => (([], false), gc.noteGet key)

/-- A write of `value` under `key`: the entry is stored unless writes to the key fail; the
result is `TRUE` exactly when it was stored. -/
def GConfClient.store (gc : GConfClient) (key : GConfKey) (value : GConfValue) :
    Bool × GConfClient :=
  if key ∈ gc.writeErrors then
    (false, { gc with accesses := gc.accesses ++ [GConfAccess.set key value] })
  else
    (true,
      { gc with
        entries := (key, value) :: gc.entries
        accesses := gc.accesses ++ [GConfAccess.set key value] })

/-- Library call `gconf_client_set_int(gc, key, val, NULL)`. -/
def gconf_client_set_int (gc : GConfClient) (key : GConfKey) (val : Int) : Bool × GConfClient :=
  gc.store key (GConfValue.int val)

/-- Library call `gconf_client_set_bool(gc, key, val, NULL)`. -/
def gconf_client_set_bool (gc : GConfClient) (key : GConfKey) (val : Bool) :
    Bool × GConfClient :=
  gc.store key (GConfValue.bool val)

/-- Library call `g_slist_index(list, data)`: the position of the first element equal to
`data`, or -1. -/
def g_slist_index : List Int → Int → Int
  | [], _ => -1
  | x :: rest, data =>
    if x = data then 0
    else
      let i := g_slist_index rest data
      if i = -1 then -1 else i + 1

/-! ## QmDisplayState -/

/-- Enum `QmDisplayState::DisplayState`. -/
inductive DisplayState
  | Off
  | Dimmed
  | On
  | Unknown
  deriving DecidableEq, Repr

/-- The display state strings of MCE. -/
structure MceDisplayNames where
  MCE_DISPLAY_DIM_STRING : String
  MCE_DISPLAY_ON_STRING : String
  MCE_DISPLAY_OFF_STRING : String
  deriving DecidableEq, Repr

/-- The fields of `QmDisplayStatePrivate` the public class uses: `connectCount` has the one
element `connectCount[SIGNAL_DISPLAY_STATE]`, and `gc` is the GConf client. -/
structure QmDisplayStatePrivate where
  connectCount : Int
  gc : GConfClient
  deriving DecidableEq, Repr

namespace QmDisplayState

/-- Method `QmDisplayState::connectNotify(signal)`; `ok` is the outcome of the bus request, if one
is made. -/
def connectNotify (HAVE_MCE : Bool) (ty : CountTy) (ok : Bool) (signal : String)
    (priv : QmDisplayStatePrivate) (bus : SystemBus) : QmDisplayStatePrivate × SystemBus :=
  if signal = SIGNAL_displayStateChanged then
    let bus1 :=
      if 0 = priv.connectCount then
        if HAVE_MCE then bus.connect MceSignal.MCE_DISPLAY_SIG ok else bus
      else bus
    ({ priv with connectCount := ty.wrap (priv.connectCount + 1) }, bus1)
  else (priv, bus)

/-- Method `QmDisplayState::disconnectNotify(signal)`. -/
def disconnectNotify (HAVE_MCE : Bool) (ty : CountTy) (ok : Bool) (signal : String)
    (priv : QmDisplayStatePrivate) (bus : SystemBus) : QmDisplayStatePrivate × SystemBus :=
  if signal = SIGNAL_displayStateChanged then
    let priv1 := { priv with connectCount := ty.wrap (priv.connectCount - 1) }
    if 0 = priv1.connectCount then
      if HAVE_MCE then (priv1, bus.disconnect MceSignal.MCE_DISPLAY_SIG ok) else (priv1, bus)
    else (priv1, bus)
  else (priv, bus)

/-- Method `QmDisplayState::get()`; `reply` is the value of a valid reply to
`MCE_DISPLAY_STATUS_GET`, or `none` when the reply is not valid. -/
def get (HAVE_MCE : Bool) (names : MceDisplayNames) (reply : Option String) (bus : SystemBus) :
    DisplayState × SystemBus :=
  if HAVE_MCE then
    let bus1 := bus.call MceMethod.MCE_DISPLAY_STATUS_GET []
    match reply with
    | none => (DisplayState.Unknown, bus1)
    | some stateStr =>
      if stateStr = names.MCE_DISPLAY_DIM_STRING then (DisplayState.Dimmed, bus1)
      else if stateStr = names.MCE_DISPLAY_ON_STRING then (DisplayState.On, bus1)
      else if stateStr = names.MCE_DISPLAY_OFF_STRING then (DisplayState.Off, bus1)
      else (DisplayState.Unknown, bus1)
  else (DisplayState.Unknown, bus)

/-- Method `QmDisplayState::set(state)`. -/
def set (HAVE_MCE : Bool) (state : DisplayState) (bus : SystemBus) : Bool × SystemBus :=
  if HAVE_MCE then
    match state with
    | DisplayState.Off => (true, bus.call MceMethod.MCE_DISPLAY_OFF_REQ [])
    | DisplayState.Dimmed => (true, bus.call MceMethod.MCE_DISPLAY_DIM_REQ [])
    | DisplayState.On => (true, bus.call MceMethod.MCE_DISPLAY_ON_REQ [])
    | _ => (false, bus)
  else (false, bus)

/-- Method `QmDisplayState::getMaxDisplayBrightnessValue()`. -/
def getMaxDisplayBrightnessValue (priv : QmDisplayStatePrivate) :
    Int × QmDisplayStatePrivate :=
  let r := gconf_client_get_int priv.gc GConfKey.MAX_BRIGHTNESS_KEY
  let ret := if r.1.2 then -1 else r.1.1
  (ret, { priv with gc := r.2 })

/-- Method `QmDisplayState::setDisplayBrightnessValue(brightness)`. -/
def setDisplayBrightnessValue (brightness : Int) (priv : QmDisplayStatePrivate) :
    QmDisplayStatePrivate :=
  if 1 > brightness then priv
  else
    let m := getMaxDisplayBrightnessValue priv
    if brightness > m.1 then m.2
    else
      { m.2 with gc := (gconf_client_set_int m.2.gc GConfKey.BRIGHTNESS_KEY brightness).2 }

/-- Method `QmDisplayState::setDisplayDimTimeout(timeout)`. -/
def setDisplayDimTimeout (timeout : Int) (priv : QmDisplayStatePrivate) :
    QmDisplayStatePrivate :=
  let r := gconf_client_get_list priv.gc GConfKey.POSSIBLE_DIM_LIST_KEY
  if r.1.2 then { priv with gc := r.2 }
  else if g_slist_index r.1.1 timeout = -1 then { priv with gc := r.2 }
  else { priv with gc := (gconf_client_set_int r.2 GConfKey.DIM_TIMEOUT_KEY timeout).2 }

end QmDisplayState

/-! ## QmDeviceMode -/

/-- Enum `QmDeviceMode::DeviceMode`. -/
inductive DeviceMode
  | Error
  | Normal
  | Flight
  deriving DecidableEq, Repr

/-- Enum `QmDeviceMode::PSMState`. -/
inductive PSMState
  | PSMError
  | PSMStateOff
  | PSMStateOn
  deriving DecidableEq, Repr

/-- The fields of `QmDeviceModePrivate` the public class uses: the two elements
`connectCount[SIGNAL_DEVICE_MODE]` and `connectCount[SIGNAL_PSM_MODE]`, and the GConf client
`gcClient`. -/
structure QmDeviceModePrivate where
  connectCount_DEVICE_MODE : Int
  connectCount_PSM_MODE : Int
  gcClient : GConfClient
  deriving DecidableEq, Repr

namespace QmDeviceMode

/-- Method `QmDeviceMode::connectNotify(signal)`; `ok` is the outcome of the bus request, if one is
made. -/
def connectNotify (HAVE_MCE : Bool) (ty : CountTy) (ok : Bool) (signal : String)
    (priv : QmDeviceModePrivate) (bus : SystemBus) : QmDeviceModePrivate × SystemBus :=
  if signal = SIGNAL_deviceModeChanged then
    let bus1 :=
      if 0 = priv.connectCount_DEVICE_MODE then
        if HAVE_MCE then bus.connect MceSignal.MCE_RADIO_STATES_SIG ok else bus
      else bus
    ({ priv with connectCount_DEVICE_MODE := ty.wrap (priv.connectCount_DEVICE_MODE + 1) }, bus1)
  else if signal = SIGNAL_devicePSMStateChanged then
    let bus1 :=
      if 0 = priv.connectCount_PSM_MODE then
        if HAVE_MCE then bus.connect MceSignal.MCE_PSM_STATE_SIG ok else bus
      else bus
    ({ priv with connectCount_PSM_MODE := ty.wrap (priv.connectCount_PSM_MODE + 1) }, bus1)
  else (priv, bus)

/-- Method `QmDeviceMode::disconnectNotify(signal)`. -/
def disconnectNotify (HAVE_MCE : Bool) (ty : CountTy) (ok : Bool) (signal : String)
    (priv : QmDeviceModePrivate) (bus : SystemBus) : QmDeviceModePrivate × SystemBus :=
  if signal = SIGNAL_deviceModeChanged then
    let priv1 :=
      { priv with connectCount_DEVICE_MODE := ty.wrap (priv.connectCount_DEVICE_MODE - 1) }
    if 0 = priv1.connectCount_DEVICE_MODE then
      if HAVE_MCE then (priv1, bus.disconnect MceSignal.MCE_RADIO_STATES_SIG ok)
      else (priv1, bus)
    else (priv1, bus)
  else if signal = SIGNAL_devicePSMStateChanged then
    let priv1 := { priv with connectCount_PSM_MODE := ty.wrap (priv.connectCount_PSM_MODE - 1) }
    if 0 = priv1.connectCount_PSM_MODE then
      if HAVE_MCE then (priv1, bus.disconnect MceSignal.MCE_PSM_STATE_SIG ok)
      else (priv1, bus)
    else (priv1, bus)
  else (priv, bus)

/-- Method `QmDeviceMode::getMode()`; `reply` is the value of a valid reply to
`MCE_RADIO_STATES_GET`, or `none`; `radioStateToDeviceMode` is the private translation. -/
def getMode (HAVE_MCE : Bool) (radioStateToDeviceMode : Nat → DeviceMode) (reply : Option Nat)
    (bus : SystemBus) : DeviceMode × SystemBus :=
  if HAVE_MCE then
    let bus1 := bus.call MceMethod.MCE_RADIO_STATES_GET []
    match reply with
    | some value => (radioStateToDeviceMode value, bus1)
    | none => (DeviceMode.Error, bus1)
  else (DeviceMode.Error, bus)

/-- Method `QmDeviceMode::getPSMState()`; `reply` is the value of a valid reply to
`MCE_PSM_STATE_GET`, or `none`; `psmStateToModeEnum` is the private translation. -/
def getPSMState (HAVE_MCE : Bool) (psmStateToModeEnum : Bool → PSMState) (reply : Option Bool)
    (bus : SystemBus) : PSMState × SystemBus :=
  if HAVE_MCE then
    let bus1 := bus.call MceMethod.MCE_PSM_STATE_GET []
    match reply with
    | some value => (psmStateToModeEnum value, bus1)
    | none => (PSMState.PSMError, bus1)
  else (PSMState.PSMError, bus)

/-- Method `QmDeviceMode::setMode(mode)`; `MCE_RADIO_STATE_MASTER` is the master radio bit. -/
def setMode (HAVE_MCE : Bool) (MCE_RADIO_STATE_MASTER : Nat) (mode : DeviceMode)
    (bus : SystemBus) : Bool × SystemBus :=
  if HAVE_MCE then
    match mode with
    | DeviceMode.Normal =>
      (true, bus.call MceMethod.MCE_RADIO_STATES_CHANGE_REQ [1, MCE_RADIO_STATE_MASTER])
    | DeviceMode.Flight =>
      (true, bus.call MceMethod.MCE_RADIO_STATES_CHANGE_REQ [0, MCE_RADIO_STATE_MASTER])
    | _ => (false, bus)
  else (false, bus)

/-- Method `QmDeviceMode::setPSMState(state)`. -/
def setPSMState (state : PSMState) (priv : QmDeviceModePrivate) : Bool × QmDeviceModePrivate :=
  match state with
  | PSMState.PSMStateOff =>
    let w := gconf_client_set_bool priv.gcClient GConfKey.FORCE_POWER_SAVING false
    (w.1, { priv with gcClient := w.2 })
  | PSMState.PSMStateOn =>
    let w := gconf_client_set_bool priv.gcClient GConfKey.FORCE_POWER_SAVING true
    (w.1, { priv with gcClient := w.2 })
  | _ => (false, priv)

/-- The loop of `setPSMBatteryMode` over the threshold list: the data of the first element
with `percentages <= data`, or of the last element; `value` keeps its initial 0 on an empty
list. -/
def selectThreshold (percentages : Int) : List Int → Int
  | [] => 0
  | data :: next =>
    if percentages ≤ data ∨ next = [] then data else selectThreshold percentages next

/-- The tail of `setPSMBatteryMode`, from `gboolean ret = FALSE` on: the writes for the chosen
`value`. -/
def writePSMBatteryMode (value : Int) (gc : GConfClient) : Bool × GConfClient :=
  if value = 0 then gconf_client_set_bool gc GConfKey.ENABLE_POWER_SAVING false
  else
    let w := gconf_client_set_bool gc GConfKey.ENABLE_POWER_SAVING true
    if w.1 then gconf_client_set_int w.2 GConfKey.THRESHOLD value else w

/-- Method `QmDeviceMode::setPSMBatteryMode(percentages)`. -/
def setPSMBatteryMode (percentages : Int) (priv : QmDeviceModePrivate) :
    Bool × QmDeviceModePrivate :=
  if percentages < 0 ∨ percentages > 100 then (false, priv)
  else if percentages > 0 then
    let r := gconf_client_get_list priv.gcClient GConfKey.THRESHOLDS
    if r.1.1 = [] then (false, { priv with gcClient := r.2 })
    else
      let w := writePSMBatteryMode (selectThreshold percentages r.1.1) r.2
      (w.1, { priv with gcClient := w.2 })
  else
    let w := writePSMBatteryMode 0 priv.gcClient
    (w.1, { priv with gcClient := w.2 })

/-- Method `QmDeviceMode::getPSMBatteryMode()`. -/
def getPSMBatteryMode (priv : QmDeviceModePrivate) : Int × QmDeviceModePrivate :=
  let r := gconf_client_get_bool priv.gcClient GConfKey.ENABLE_POWER_SAVING
  if r.1.2 then (-1, { priv with gcClient := r.2 })
  else if r.1.1 = false then (0, { priv with gcClient := r.2 })
  else
    let t := gconf_client_get_int r.2 GConfKey.THRESHOLD
    if t.1.2 then (-1, { priv with gcClient := t.2 })
    else (t.1.1, { priv with gcClient := t.2 })

end QmDeviceMode

/-! ## QmActivity -/

/-- Enum `QmActivity::Activity`. -/
inductive Activity
  | Inactive
  | Active
  deriving DecidableEq, Repr

/-- A `QVariant` as a reply argument: no value, a boolean, an integer or a string. -/
inductive QVariant
  | invalid
  | bool (b : Bool)
  | int (n : Int)
  | string (s : String)
  deriving DecidableEq, Repr

/-- Library call `QVariant::toBool()`: the boolean itself; an integer is true when it is not
zero; a string is true unless its lower-case content is empty, `0` or `false`; an invalid
variant is false. -/
def QVariant.toBool : QVariant → Bool
  | .invalid => false
  | .bool b => b
  | .int n => decide (n ≠ 0)
  | .string s => !(s.toLower = "0" || s.toLower = "false" || s.toLower = "")

/-- The field of `QmActivityPrivate` the notification hooks use: `connectCount` has the one
element `connectCount[SIGNAL_INACTIVITY]`. -/
structure QmActivityPrivate where
  connectCount : Int
  deriving DecidableEq, Repr

namespace QmActivity

/-- Method `QmActivity::connectNotify(signal)`; `ok` is the outcome of the bus request, if one is
made. -/
def connectNotify (HAVE_MCE : Bool) (ty : CountTy) (ok : Bool) (signal : String)
    (priv : QmActivityPrivate) (bus : SystemBus) : QmActivityPrivate × SystemBus :=
  if signal = SIGNAL_activityChanged then
    let bus1 :=
      if 0 = priv.connectCount then
        if HAVE_MCE then bus.connect MceSignal.MCE_INACTIVITY_SIG ok else bus
      else bus
    ({ priv with connectCount := ty.wrap (priv.connectCount + 1) }, bus1)
  else (priv, bus)

/-- Method `QmActivity::disconnectNotify(signal)`. -/
def disconnectNotify (HAVE_MCE : Bool) (ty : CountTy) (ok : Bool) (signal : String)
    (priv : QmActivityPrivate) (bus : SystemBus) : QmActivityPrivate × SystemBus :=
  if signal = SIGNAL_activityChanged then
    let priv1 := { priv with connectCount := ty.wrap (priv.connectCount - 1) }
    if 0 = priv1.connectCount then
      if HAVE_MCE then (priv1, bus.disconnect MceSignal.MCE_INACTIVITY_SIG ok) else (priv1, bus)
    else (priv1, bus)
  else (priv, bus)

/-- Method `QmActivity::get()`; `results` is the list that
`requestIf->get(MCE_INACTIVITY_STATUS_GET)` returns. -/
def get (HAVE_MCE : Bool) (results : List QVariant) (bus : SystemBus) : Activity × SystemBus :=
  if HAVE_MCE then
    let bus1 := bus.call MceMethod.MCE_INACTIVITY_STATUS_GET []
    match results with
    | [] => (Activity.Inactive, bus1)
    | first :: _ => if !first.toBool then (Activity.Active, bus1) else (Activity.Inactive, bus1)
  else (Activity.Inactive, bus)

end QmActivity

/-! ## The three objects on one bus -/

/-- The four observable categories. -/
inductive Category
  | displayState
  | deviceMode
  | psmState
  | activity
  deriving DecidableEq, Repr

/-- The three public objects. -/
inductive Obj
  | qmDisplayState
  | qmDeviceMode
  | qmActivity
  deriving DecidableEq, Repr

/-- The object that owns a category. -/
def Category.obj : Category → Obj
  | .displayState => Obj.qmDisplayState
  | .deviceMode => Obj.qmDeviceMode
  | .psmState => Obj.qmDeviceMode
  | .activity => Obj.qmActivity

/-- The Qt signal of a category, as `connectNotify` receives it. -/
def Category.signal : Category → String
  | .displayState => SIGNAL_displayStateChanged
  | .deviceMode => SIGNAL_deviceModeChanged
  | .psmState => SIGNAL_devicePSMStateChanged
  | .activity => SIGNAL_activityChanged

/-- The MCE signal a category subscribes to. -/
def Category.mceSignal : Category → MceSignal
  | .displayState => MceSignal.MCE_DISPLAY_SIG
  | .deviceMode => MceSignal.MCE_RADIO_STATES_SIG
  | .psmState => MceSignal.MCE_PSM_STATE_SIG
  | .activity => MceSignal.MCE_INACTIVITY_SIG

/-- One instance of each class, and the system bus they share. -/
structure System where
  display : QmDisplayStatePrivate
  device : QmDeviceModePrivate
  activity : QmActivityPrivate
  bus : SystemBus
  deriving DecidableEq, Repr

/-- An empty settings store on which every access succeeds. -/
def GConfClient.empty : GConfClient :=
  { entries := [], readErrors := [], writeErrors := [], accesses := [] }

/-- The state after construction: every count is 0 and nothing was requested. -/
def System.init : System :=
  { display := { connectCount := 0, gc := GConfClient.empty }
    device :=
      { connectCount_DEVICE_MODE := 0, connectCount_PSM_MODE := 0, gcClient := GConfClient.empty }
    activity := { connectCount := 0 }
    bus := { connected := [], requests := [] } }

/-- The connection count of a category. -/
def System.count (s : System) : Category → Int
  | .displayState => s.display.connectCount
  | .deviceMode => s.device.connectCount_DEVICE_MODE
  | .psmState => s.device.connectCount_PSM_MODE
  | .activity => s.activity.connectCount

/-- The subscription of a category that the requests made so far leave behind: the object
has asked the bus for the signal of the category and has not asked to drop it since. -/
def System.subscribed (s : System) (cat : Category) : Bool :=
  subscribedIn cat.mceSignal s.bus.requests

/-- The delivery of the signal of a category is established on the bus. -/
def System.connected (s : System) (cat : Category) : Bool :=
  decide (cat.mceSignal ∈ s.bus.connected)

/-- A call of `connectNotify` (`isConnect`) or `disconnectNotify` on one of the objects, with
the signal it is given and the outcome `ok` of the bus request it may make. -/
structure Call where
  obj : Obj
  isConnect : Bool
  signal : String
  ok : Bool
  deriving DecidableEq, Repr

/-- The effect of one call. -/
def System.step (HAVE_MCE : Bool) (ty : CountTy) (s : System) (c : Call) : System :=
  match c.obj, c.isConnect with
  | Obj.qmDisplayState, true =>
    let r := QmDisplayState.connectNotify HAVE_MCE ty c.ok c.signal s.display s.bus
    { s with display := r.1, bus := r.2 }
  | Obj.qmDisplayState, false =>
    let r := QmDisplayState.disconnectNotify HAVE_MCE ty c.ok c.signal s.display s.bus
    { s with display := r.1, bus := r.2 }
  | Obj.qmDeviceMode, true =>
    let r := QmDeviceMode.connectNotify HAVE_MCE ty c.ok c.signal s.device s.bus
    { s with device := r.1, bus := r.2 }
  | Obj.qmDeviceMode, false =>
    let r := QmDeviceMode.disconnectNotify HAVE_MCE ty c.ok c.signal s.device s.bus
    { s with device := r.1, bus := r.2 }
  | Obj.qmActivity, true =>
    let r := QmActivity.connectNotify HAVE_MCE ty c.ok c.signal s.activity s.bus
    { s with activity := r.1, bus := r.2 }
  | Obj.qmActivity, false =>
    let r := QmActivity.disconnectNotify HAVE_MCE ty c.ok c.signal s.activity s.bus
    { s with activity := r.1, bus := r.2 }

/-- The effect of a sequence of calls, first call first. -/
def System.run (HAVE_MCE : Bool) (ty : CountTy) (s : System) : List Call → System
  | [] => s
  | c :: rest => System.run HAVE_MCE ty (System.step HAVE_MCE ty s c) rest

/-- A call of `connectNotify` with the signal of category `cat`, on the object that owns it. -/
def Call.register (cat : Category) (ok : Bool) : Call :=
  { obj := cat.obj, isConnect := true, signal := cat.signal, ok := ok }

/-- A call of `disconnectNotify` with the signal of category `cat`, on the object that owns it. -/
def Call.deregister (cat : Category) (ok : Bool) : Call :=
  { obj := cat.obj, isConnect := false, signal := cat.signal, ok := ok }

/-- The call is addressed to category `cat`: it is made on the object that owns `cat`, with
the signal of `cat`. -/
def Call.isFor (c : Call) (cat : Category) : Bool :=
  decide (c.obj = cat.obj) && decide (c.signal = cat.signal)

/-- Every bus request made by the calls succeeds. -/
def allOk (calls : List Call) : Bool :=
  calls.all (fun c => c.ok)

/-- The contribution of one call to the balance of category `cat`: +1 for a `connectNotify`
addressed to it, -1 for a `disconnectNotify` addressed to it, 0 for any other call. -/
def Call.delta (c : Call) (cat : Category) : Int :=
  if c.isFor cat then (if c.isConnect then 1 else -1) else 0

/-- Registrations minus deregistrations of category `cat` in a sequence of calls. -/
def netCount (cat : Category) : List Call → Int
  | [] => 0
  | c :: rest => c.delta cat + netCount cat rest

/-- Starting from the balance `b`, after every call of the sequence the balance of category
`cat` lies between `lo` and `hi`. -/
def staysWithin (lo hi : Int) (cat : Category) (b : Int) : List Call → Bool
  | [] => true
  | c :: rest =>
    decide (lo ≤ b + c.delta cat) && decide (b + c.delta cat ≤ hi) &&
      staysWithin lo hi cat (b + c.delta cat) rest

/-- The counter of category `cat` does not wrap around during the sequence, started from
count 0: after every call, registrations minus deregistrations is a value of the counter
type.  For `size_t` this says that no `disconnectNotify` arrives at count 0. -/
def noWrap (ty : CountTy) (cat : Category) (calls : List Call) : Bool :=
  staysWithin ty.minVal ty.maxVal cat 0 calls

/-- Calls for category `cat` are matched, started from count 0: after every call,
registrations minus deregistrations is at least 0 and at most the largest value of the
counter type. -/
def balanced (ty : CountTy) (cat : Category) (calls : List Call) : Bool :=
  staysWithin 0 ty.maxVal cat 0 calls

/-- The count of category `cat` after each call of a sequence. -/
def System.countTrace (HAVE_MCE : Bool) (ty : CountTy) (s : System) (cat : Category) :
    List Call → List Int
  | [] => []
  | c :: rest =>
    (System.step HAVE_MCE ty s c).count cat ::
      System.countTrace HAVE_MCE ty (System.step HAVE_MCE ty s c) cat rest

/-- The number of places in a list where `a` is directly followed by `b`. -/
def transitions (a b : Int) : List Int → Nat
  | x :: y :: rest => (if x = a ∧ y = b then 1 else 0) + transitions a b (y :: rest)
  | _ => 0

/-- Method `QmDisplayState::get()` on the display state object of the system. -/
def System.get (HAVE_MCE : Bool) (names : MceDisplayNames) (reply : Option String)
    (s : System) : DisplayState × System :=
  let r := QmDisplayState.get HAVE_MCE names reply s.bus
  (r.1, { s with bus := r.2 })

/-- Method `QmDeviceMode::getMode()` on the device mode object of the system. -/
def System.getMode (HAVE_MCE : Bool) (radioStateToDeviceMode : Nat → DeviceMode)
    (reply : Option Nat) (s : System) : DeviceMode × System :=
  let r := QmDeviceMode.getMode HAVE_MCE radioStateToDeviceMode reply s.bus
  (r.1, { s with bus := r.2 })

/-- Method `QmDeviceMode::getPSMState()` on the device mode object of the system. -/
def System.getPSMState (HAVE_MCE : Bool) (psmStateToModeEnum : Bool → PSMState)
    (reply : Option Bool) (s : System) : PSMState × System :=
  let r := QmDeviceMode.getPSMState HAVE_MCE psmStateToModeEnum reply s.bus
  (r.1, { s with bus := r.2 })

/-- Method `QmActivity::get()` on the activity object of the system. -/
def System.activityGet (HAVE_MCE : Bool) (results : List QVariant) (s : System) :
    Activity × System :=
  let r := QmActivity.get HAVE_MCE results s.bus
  (r.1, { s with bus := r.2 })

/-- The threshold as the description of `setPSMBatteryMode` words it: the first element of the
list that is at least `p`, or the last element when no element is at least `p` (0 on an empty
list). -/
def firstAtLeastOrLast (p : Int) (l : List Int) : Int :=
  match l.find? (fun d => decide (p ≤ d)) with
  | some d => d
  | none => l.getLast?.getD 0

/-! ## Counter arithmetic -/

theorem CountTy.wrap_inRange (ty : CountTy) (x : Int) : ty.inRange (ty.wrap x) := by
  cases ty <;> simp only [CountTy.inRange, CountTy.wrap, CountTy.minVal, CountTy.maxVal] <;> omega

theorem CountTy.wrap_of_inRange (ty : CountTy) (x : Int) (h : ty.inRange x) : ty.wrap x = x := by
  cases ty <;> simp only [CountTy.inRange, CountTy.wrap, CountTy.minVal, CountTy.maxVal] at * <;>
    omega

theorem CountTy.wrap_one (ty : CountTy) : ty.wrap (0 + 1) = 1 := by
  cases ty <;> simp [CountTy.wrap]

theorem CountTy.wrap_neg_one_ne_zero (ty : CountTy) : ty.wrap (0 - 1) ≠ 0 := by
  cases ty <;> simp [CountTy.wrap]

theorem CountTy.wrap_neg_one_ne_one (ty : CountTy) : ty.wrap (0 - 1) ≠ 1 := by
  cases ty <;> simp [CountTy.wrap]

theorem CountTy.wrap_pred_eq_zero (ty : CountTy) (x : Int) (h : ty.inRange x) :
    ty.wrap (x - 1) = 0 ↔ x = 1 := by
  cases ty <;> simp only [CountTy.inRange, CountTy.wrap, CountTy.minVal, CountTy.maxVal] at * <;>
    omega

theorem CountTy.wrap_succ_pred (ty : CountTy) (x : Int) (h : ty.inRange x) :
    ty.wrap (ty.wrap (x + 1) - 1) = x := by
  cases ty <;> simp only [CountTy.inRange, CountTy.wrap, CountTy.minVal, CountTy.maxVal] at * <;>
    omega

theorem CountTy.minVal_nonpos (ty : CountTy) : ty.minVal ≤ 0 := by
  cases ty <;> simp [CountTy.minVal]

/-! ## Signal signatures are pairwise different -/

theorem SIGNAL_deviceMode_ne_psm : SIGNAL_deviceModeChanged ≠ SIGNAL_devicePSMStateChanged := by
  decide

/-! ## One call, seen from one category -/

theorem System.step_register_count (H : Bool) (ty : CountTy) (s : System) (cat cat2 : Category)
    (ok : Bool) :
    (System.step H ty s (Call.register cat ok)).count cat2 =
      if cat2 = cat then ty.wrap (s.count cat + 1) else s.count cat2 := by
  have hne := SIGNAL_deviceMode_ne_psm
  cases cat <;> cases cat2 <;>
    simp [System.step, System.count, Call.register, Category.obj, Category.signal,
      QmDisplayState.connectNotify, QmDeviceMode.connectNotify, QmActivity.connectNotify,
      hne, hne.symm]

theorem System.step_deregister_count (H : Bool) (ty : CountTy) (s : System)
    (cat cat2 : Category) (ok : Bool) :
    (System.step H ty s (Call.deregister cat ok)).count cat2 =
      if cat2 = cat then ty.wrap (s.count cat - 1) else s.count cat2 := by
  have hne := SIGNAL_deviceMode_ne_psm
  cases cat <;> cases cat2 <;>
    simp [System.step, System.count, Call.deregister, Category.obj, Category.signal,
      QmDisplayState.disconnectNotify, QmDeviceMode.disconnectNotify,
      QmActivity.disconnectNotify, hne, hne.symm] <;>
    split_ifs <;> rfl

theorem System.step_register_bus (H : Bool) (ty : CountTy) (s : System) (cat : Category)
    (ok : Bool) :
    (System.step H ty s (Call.register cat ok)).bus =
      if 0 = s.count cat then (if H then s.bus.connect cat.mceSignal ok else s.bus)
      else s.bus := by
  have hne := SIGNAL_deviceMode_ne_psm
  cases cat <;>
    simp [System.step, System.count, Call.register, Category.obj, Category.signal,
      Category.mceSignal, QmDisplayState.connectNotify, QmDeviceMode.connectNotify,
      QmActivity.connectNotify, hne, hne.symm]

theorem System.step_deregister_bus (H : Bool) (ty : CountTy) (s : System) (cat : Category)
    (ok : Bool) :
    (System.step H ty s (Call.deregister cat ok)).bus =
      if 0 = ty.wrap (s.count cat - 1) then
        (if H then s.bus.disconnect cat.mceSignal ok else s.bus)
      else s.bus := by
  have hne := SIGNAL_deviceMode_ne_psm
  cases cat <;>
    simp [System.step, System.count, Call.deregister, Category.obj, Category.signal,
      Category.mceSignal, QmDisplayState.disconnectNotify, QmDeviceMode.disconnectNotify,
      QmActivity.disconnectNotify, hne, hne.symm] <;>
    split_ifs <;> rfl

theorem Call.trichotomy (c : Call) :
    (∃ cat, c = Call.register cat c.ok) ∨ (∃ cat, c = Call.deregister cat c.ok) ∨
      ((∀ cat, c.isFor cat = false) ∧
        ∀ (H : Bool) (ty : CountTy) (s : System), System.step H ty s c = s) := by
  obtain ⟨obj, isC, sig, ok⟩ := c
  cases obj <;> cases isC
  · by_cases h : sig = SIGNAL_displayStateChanged
    · exact Or.inr (Or.inl ⟨Category.displayState, by subst h; rfl⟩)
    · exact Or.inr (Or.inr ⟨fun cat => by
        cases cat <;> simp [Call.isFor, Category.obj, Category.signal, h],
        fun H ty s => by simp [System.step, QmDisplayState.disconnectNotify, h]⟩)
  · by_cases h : sig = SIGNAL_displayStateChanged
    · exact Or.inl ⟨Category.displayState, by subst h; rfl⟩
    · exact Or.inr (Or.inr ⟨fun cat => by
        cases cat <;> simp [Call.isFor, Category.obj, Category.signal, h],
        fun H ty s => by simp [System.step, QmDisplayState.connectNotify, h]⟩)
  · by_cases h : sig = SIGNAL_deviceModeChanged
    · exact Or.inr (Or.inl ⟨Category.deviceMode, by subst h; rfl⟩)
    · by_cases h2 : sig = SIGNAL_devicePSMStateChanged
      · exact Or.inr (Or.inl ⟨Category.psmState, by subst h2; rfl⟩)
      · exact Or.inr (Or.inr ⟨fun cat => by
          cases cat <;> simp [Call.isFor, Category.obj, Category.signal, h, h2],
          fun H ty s => by simp [System.step, QmDeviceMode.disconnectNotify, h, h2]⟩)
  · by_cases h : sig = SIGNAL_deviceModeChanged
    · exact Or.inl ⟨Category.deviceMode, by subst h; rfl⟩
    · by_cases h2 : sig = SIGNAL_devicePSMStateChanged
      · exact Or.inl ⟨Category.psmState, by subst h2; rfl⟩
      · exact Or.inr (Or.inr ⟨fun cat => by
          cases cat <;> simp [Call.isFor, Category.obj, Category.signal, h, h2],
          fun H ty s => by simp [System.step, QmDeviceMode.connectNotify, h, h2]⟩)
  · by_cases h : sig = SIGNAL_activityChanged
    · exact Or.inr (Or.inl ⟨Category.activity, by subst h; rfl⟩)
    · exact Or.inr (Or.inr ⟨fun cat => by
        cases cat <;> simp [Call.isFor, Category.obj, Category.signal, h],
        fun H ty s => by simp [System.step, QmActivity.disconnectNotify, h]⟩)
  · by_cases h : sig = SIGNAL_activityChanged
    · exact Or.inl ⟨Category.activity, by subst h; rfl⟩
    · exact Or.inr (Or.inr ⟨fun cat => by
        cases cat <;> simp [Call.isFor, Category.obj, Category.signal, h],
        fun H ty s => by simp [System.step, QmActivity.connectNotify, h]⟩)

theorem Call.isFor_register (cat cat2 : Category) (ok : Bool) :
    (Call.register cat ok).isFor cat2 = decide (cat = cat2) := by
  have hne := SIGNAL_deviceMode_ne_psm
  cases cat <;> cases cat2 <;>
    simp [Call.isFor, Call.register, Category.obj, Category.signal, hne, hne.symm]

theorem Call.isFor_deregister (cat cat2 : Category) (ok : Bool) :
    (Call.deregister cat ok).isFor cat2 = decide (cat = cat2) := by
  have hne := SIGNAL_deviceMode_ne_psm
  cases cat <;> cases cat2 <;>
    simp [Call.isFor, Call.deregister, Category.obj, Category.signal, hne, hne.symm]

theorem Category.mceSignal_injective (cat cat2 : Category)
    (h : cat.mceSignal = cat2.mceSignal) : cat = cat2 := by
  cases cat <;> cases cat2 <;> first | rfl | exact absurd h (by decide)

theorem System.step_count (H : Bool) (ty : CountTy) (s : System) (c : Call) (cat : Category) :
    (System.step H ty s c).count cat =
      if c.isFor cat then
        (if c.isConnect then ty.wrap (s.count cat + 1) else ty.wrap (s.count cat - 1))
      else s.count cat := by
  rcases Call.trichotomy c with ⟨cat2, h⟩ | ⟨cat2, h⟩ | ⟨h1, h2⟩
  · rw [h, System.step_register_count, Call.isFor_register]
    by_cases e : cat = cat2
    · subst e; simp [Call.register]
    · have e2 : ¬ cat2 = cat := fun x => e x.symm
      simp [e, e2]
  · rw [h, System.step_deregister_count, Call.isFor_deregister]
    by_cases e : cat = cat2
    · subst e; simp [Call.deregister]
    · have e2 : ¬ cat2 = cat := fun x => e x.symm
      simp [e, e2]
  · rw [h2, h1]; simp

theorem System.step_requests_for (H : Bool) (ty : CountTy) (s : System) (c : Call)
    (cat : Category) (h : c.isFor cat = true) :
    (System.step H ty s c).bus.requests =
      s.bus.requests ++
        if c.isConnect then
          (if s.count cat = 0 ∧ H = true then [BusRequest.connect cat.mceSignal] else [])
        else
          (if ty.wrap (s.count cat - 1) = 0 ∧ H = true then
            [BusRequest.disconnect cat.mceSignal]
          else []) := by
  rcases Call.trichotomy c with ⟨cat2, e⟩ | ⟨cat2, e⟩ | ⟨h1, _⟩
  · have hc : cat2 = cat := by
      rw [e, Call.isFor_register] at h; exact of_decide_eq_true h
    subst hc
    rw [e, System.step_register_bus]
    by_cases z : s.count cat2 = 0
    · rw [if_pos z.symm]
      cases H <;> simp [z, Call.register, SystemBus.connect]
    · rw [if_neg (fun x => z x.symm)]
      simp [z, Call.register]
  · have hc : cat2 = cat := by
      rw [e, Call.isFor_deregister] at h; exact of_decide_eq_true h
    subst hc
    rw [e, System.step_deregister_bus]
    by_cases z : ty.wrap (s.count cat2 - 1) = 0
    · rw [if_pos z.symm]
      cases H <;> simp [z, Call.deregister, SystemBus.disconnect]
    · rw [if_neg (fun x => z x.symm)]
      simp [z, Call.deregister]
  · rw [h1 cat] at h; exact absurd h (by decide)

theorem System.step_requests_other (H : Bool) (ty : CountTy) (s : System) (c : Call)
    (cat : Category) (h : c.isFor cat = false) :
    ∃ l, (System.step H ty s c).bus.requests = s.bus.requests ++ l ∧
      BusRequest.connect cat.mceSignal ∉ l ∧ BusRequest.disconnect cat.mceSignal ∉ l := by
  rcases Call.trichotomy c with ⟨cat2, e⟩ | ⟨cat2, e⟩ | ⟨_, h2⟩
  · have hc : ¬ cat2 = cat := by
      rw [e, Call.isFor_register] at h; exact of_decide_eq_false h
    have hs : ¬ cat.mceSignal = cat2.mceSignal :=
      fun x => hc (Category.mceSignal_injective cat cat2 x).symm
    rw [e, System.step_register_bus]
    split_ifs
    · exact ⟨[BusRequest.connect cat2.mceSignal], rfl, by simp [hs], by simp⟩
    · exact ⟨[], by simp, by simp, by simp⟩
    · exact ⟨[], by simp, by simp, by simp⟩
  · have hc : ¬ cat2 = cat := by
      rw [e, Call.isFor_deregister] at h; exact of_decide_eq_false h
    have hs : ¬ cat.mceSignal = cat2.mceSignal :=
      fun x => hc (Category.mceSignal_injective cat cat2 x).symm
    rw [e, System.step_deregister_bus]
    split_ifs
    · exact ⟨[BusRequest.disconnect cat2.mceSignal], rfl, by simp, by simp [hs]⟩
    · exact ⟨[], by simp, by simp, by simp⟩
    · exact ⟨[], by simp, by simp, by simp⟩
  · exact ⟨[], by rw [h2]; simp, by simp, by simp⟩

/-! ## Request logs -/

theorem subscribedIn_append_other (sig : MceSignal) (log l : List BusRequest)
    (h1 : BusRequest.connect sig ∉ l) (h2 : BusRequest.disconnect sig ∉ l) :
    subscribedIn sig (log ++ l) = subscribedIn sig log := by
  unfold subscribedIn
  rw [List.foldl_append]
  generalize List.foldl _ false log = b
  induction l generalizing b with
  | nil => rfl
  | cons r rest ih =>
    have r1 : ¬ r = BusRequest.connect sig := fun e => h1 (by simp [e])
    have r2 : ¬ r = BusRequest.disconnect sig := fun e => h2 (by simp [e])
    simp only [List.foldl_cons, r1, r2, if_false]
    exact ih (fun m => h1 (List.mem_cons_of_mem _ m)) (fun m => h2 (List.mem_cons_of_mem _ m)) b

theorem subscribedIn_append_connect (sig : MceSignal) (log : List BusRequest) :
    subscribedIn sig (log ++ [BusRequest.connect sig]) = true := by
  simp [subscribedIn, List.foldl_append]

theorem subscribedIn_append_disconnect (sig : MceSignal) (log : List BusRequest) :
    subscribedIn sig (log ++ [BusRequest.disconnect sig]) = false := by
  simp [subscribedIn, List.foldl_append]

/-! ## Established signal deliveries -/

theorem System.step_connected_other (H : Bool) (ty : CountTy) (s : System) (c : Call)
    (cat : Category) (h : c.isFor cat = false) :
    (System.step H ty s c).connected cat = s.connected cat := by
  unfold System.connected
  rcases Call.trichotomy c with ⟨cat2, e⟩ | ⟨cat2, e⟩ | ⟨_, h2⟩
  · have hc : ¬ cat2 = cat := by
      rw [e, Call.isFor_register] at h; exact of_decide_eq_false h
    have hs : ¬ cat.mceSignal = cat2.mceSignal :=
      fun x => hc (Category.mceSignal_injective cat cat2 x).symm
    rw [e, System.step_register_bus]
    by_cases k : c.ok = true <;> split_ifs <;> simp [SystemBus.connect, hs, k]
  · have hc : ¬ cat2 = cat := by
      rw [e, Call.isFor_deregister] at h; exact of_decide_eq_false h
    have hs : ¬ cat.mceSignal = cat2.mceSignal :=
      fun x => hc (Category.mceSignal_injective cat cat2 x).symm
    rw [e, System.step_deregister_bus]
    by_cases k : c.ok = true <;> split_ifs <;>
      simp [SystemBus.disconnect, List.mem_filter, hs, k]
  · rw [h2]

theorem System.step_connected_for (ty : CountTy) (s : System) (c : Call) (cat : Category)
    (h : c.isFor cat = true) (hok : c.ok = true) :
    (System.step true ty s c).connected cat =
      if c.isConnect then (decide (s.count cat = 0) || s.connected cat)
      else (!decide (ty.wrap (s.count cat - 1) = 0) && s.connected cat) := by
  unfold System.connected
  rcases Call.trichotomy c with ⟨cat2, e⟩ | ⟨cat2, e⟩ | ⟨h1, _⟩
  · have hc : cat2 = cat := by
      rw [e, Call.isFor_register] at h; exact of_decide_eq_true h
    subst hc
    rw [e, System.step_register_bus, hok]
    by_cases z : s.count cat2 = 0
    · rw [if_pos z.symm]; simp [z, Call.register, SystemBus.connect]
    · rw [if_neg (fun x => z x.symm)]; simp [z, Call.register]
  · have hc : cat2 = cat := by
      rw [e, Call.isFor_deregister] at h; exact of_decide_eq_true h
    subst hc
    rw [e, System.step_deregister_bus, hok]
    by_cases z : ty.wrap (s.count cat2 - 1) = 0
    · rw [if_pos z.symm]; simp [z, Call.deregister, SystemBus.disconnect, List.mem_filter]
    · rw [if_neg (fun x => z x.symm)]; simp [z, Call.deregister]
  · rw [h1 cat] at h; exact absurd h (by decide)

/-! ## Sequences of calls -/

theorem System.run_count_of_staysWithin (H : Bool) (ty : CountTy) (cat : Category)
    (lo hi : Int) (hlo : ty.minVal ≤ lo) (hhi : hi ≤ ty.maxVal) (calls : List Call) :
    ∀ s : System, staysWithin lo hi cat (s.count cat) calls = true →
      (System.run H ty s calls).count cat = s.count cat + netCount cat calls := by
  induction calls with
  | nil => intro s _; simp [System.run, netCount]
  | cons c rest ih =>
    intro s h
    simp only [staysWithin, Bool.and_eq_true, decide_eq_true_eq] at h
    obtain ⟨⟨h1, h2⟩, h3⟩ := h
    have hstep : (System.step H ty s c).count cat = s.count cat + c.delta cat := by
      rw [System.step_count]
      unfold Call.delta at h1 h2 ⊢
      by_cases f : c.isFor cat = true
      · by_cases g : c.isConnect = true
        · simp only [f, g, if_true] at h1 h2 ⊢
          exact CountTy.wrap_of_inRange ty _ ⟨by omega, by omega⟩
        · simp only [f, g, if_true] at h1 h2 ⊢
          simp only [Bool.false_eq_true, if_false] at h1 h2 ⊢
          exact CountTy.wrap_of_inRange ty _ ⟨by omega, by omega⟩
      · simp [f]
    simp only [System.run, netCount]
    rw [ih (System.step H ty s c) (by rw [hstep]; exact h3), hstep]
    omega

theorem System.run_subscribed_iff (ty : CountTy) (cat : Category) (calls : List Call) :
    ∀ s : System, (s.subscribed cat = true ↔ 0 < s.count cat) →
      staysWithin ty.minVal ty.maxVal cat (s.count cat) calls = true →
      ((System.run true ty s calls).subscribed cat = true ↔
        0 < (System.run true ty s calls).count cat) := by
  induction calls with
  | nil => intro s h _; simpa [System.run] using h
  | cons c rest ih =>
    intro s hinv h
    simp only [staysWithin, Bool.and_eq_true, decide_eq_true_eq] at h
    obtain ⟨⟨h1, h2⟩, h3⟩ := h
    have hstep : (System.step true ty s c).count cat = s.count cat + c.delta cat :=
      System.run_count_of_staysWithin true ty cat ty.minVal ty.maxVal (le_refl _) (le_refl _)
        [c] s (by simp [staysWithin, h1, h2]) |>.trans (by simp [netCount])
    simp only [System.run]
    apply ih
    · rw [hstep]
      unfold System.subscribed at hinv ⊢
      by_cases f : c.isFor cat = true
      · rw [System.step_requests_for true ty s c cat f]
        by_cases g : c.isConnect = true
        · simp only [Call.delta, f, g, if_true] at h1 h2 ⊢
          by_cases z : s.count cat = 0
          · rw [if_pos ⟨z, trivial⟩, subscribedIn_append_connect]
            constructor
            · intro _; omega
            · intro _; rfl
          · rw [if_neg (fun e => z e.1), List.append_nil, hinv]; omega
        · have g2 : c.isConnect = false := by simpa using g
          simp only [Call.delta, f, g2, if_true, Bool.false_eq_true, if_false] at h1 h2 ⊢
          have hw : ty.wrap (s.count cat - 1) = s.count cat - 1 :=
            CountTy.wrap_of_inRange ty _ ⟨by omega, by omega⟩
          rw [hw]
          by_cases z : s.count cat - 1 = 0
          · rw [if_pos ⟨z, trivial⟩, subscribedIn_append_disconnect]
            constructor
            · intro x; exact absurd x (by decide)
            · intro x; omega
          · rw [if_neg (fun e => z e.1), List.append_nil, hinv]; omega
      · have f2 : c.isFor cat = false := by simpa using f
        obtain ⟨l, e, n1, n2⟩ := System.step_requests_other true ty s c cat f2
        rw [e, subscribedIn_append_other _ _ _ n1 n2]
        simpa [Call.delta, f2] using hinv
    · rw [hstep]; exact h3

theorem System.run_connected_iff (ty : CountTy) (cat : Category) (calls : List Call) :
    ∀ s : System, (s.connected cat = true ↔ 0 < s.count cat) →
      staysWithin ty.minVal ty.maxVal cat (s.count cat) calls = true →
      allOk calls = true →
      ((System.run true ty s calls).connected cat = true ↔
        0 < (System.run true ty s calls).count cat) := by
  induction calls with
  | nil => intro s h _ _; simpa [System.run] using h
  | cons c rest ih =>
    intro s hinv h hok
    simp only [staysWithin, Bool.and_eq_true, decide_eq_true_eq] at h
    obtain ⟨⟨h1, h2⟩, h3⟩ := h
    simp only [allOk, List.all_cons, Bool.and_eq_true] at hok
    obtain ⟨ok1, ok2⟩ := hok
    have hstep : (System.step true ty s c).count cat = s.count cat + c.delta cat :=
      System.run_count_of_staysWithin true ty cat ty.minVal ty.maxVal (le_refl _) (le_refl _)
        [c] s (by simp [staysWithin, h1, h2]) |>.trans (by simp [netCount])
    simp only [System.run]
    apply ih
    · rw [hstep]
      by_cases f : c.isFor cat = true
      · rw [System.step_connected_for ty s c cat f ok1]
        by_cases g : c.isConnect = true
        · simp only [Call.delta, f, g, if_true] at h1 h2 ⊢
          simp only [Bool.or_eq_true, decide_eq_true_eq, hinv]
          omega
        · have g2 : c.isConnect = false := by simpa using g
          simp only [Call.delta, f, g2, if_true, Bool.false_eq_true, if_false] at h1 h2 ⊢
          have hw : ty.wrap (s.count cat - 1) = s.count cat - 1 :=
            CountTy.wrap_of_inRange ty _ ⟨by omega, by omega⟩
          rw [hw]
          simp only [Bool.and_eq_true, Bool.not_eq_true', decide_eq_false_iff_not, hinv]
          omega
      · have f2 : c.isFor cat = false := by simpa using f
        rw [System.step_connected_other true ty s c cat f2]
        simpa [Call.delta, f2] using hinv
    · rw [hstep]; exact h3
    · exact ok2

theorem System.step_count_inRange (H : Bool) (ty : CountTy) (s : System) (c : Call)
    (cat : Category) (h : ty.inRange (s.count cat)) :
    ty.inRange ((System.step H ty s c).count cat) := by
  rw [System.step_count]
  split_ifs
  · exact CountTy.wrap_inRange ty _
  · exact CountTy.wrap_inRange ty _
  · exact h

theorem System.step_connect_requests (ty : CountTy) (s : System) (c : Call) (cat : Category) :
    (System.step true ty s c).bus.requests.count (BusRequest.connect cat.mceSignal) =
      s.bus.requests.count (BusRequest.connect cat.mceSignal) +
        (if s.count cat = 0 ∧ (System.step true ty s c).count cat = 1 then 1 else 0) := by
  rw [System.step_count]
  by_cases f : c.isFor cat = true
  · rw [System.step_requests_for true ty s c cat f, List.count_append]
    by_cases g : c.isConnect = true
    · simp only [f, g, if_true]
      by_cases z : s.count cat = 0
      · rw [if_pos ⟨z, trivial⟩, if_pos ⟨z, by rw [z]; exact CountTy.wrap_one ty⟩]; simp
      · rw [if_neg (fun e => z e.1), if_neg (fun e => z e.1)]; simp
    · have g2 : c.isConnect = false := by simpa using g
      simp only [f, g2, if_true, Bool.false_eq_true, if_false]
      have w : ¬ (s.count cat = 0 ∧ ty.wrap (s.count cat - 1) = 1) := by
        rintro ⟨e1, e2⟩
        rw [e1] at e2
        exact CountTy.wrap_neg_one_ne_one ty e2
      rw [if_neg w]
      split_ifs <;> simp
  · have f2 : c.isFor cat = false := by simpa using f
    obtain ⟨l, e, n1, _⟩ := System.step_requests_other true ty s c cat f2
    rw [e, List.count_append, List.count_eq_zero_of_not_mem n1]
    simp only [f2, Bool.false_eq_true, if_false]
    rw [if_neg (by omega)]

theorem System.step_disconnect_requests (ty : CountTy) (s : System) (c : Call)
    (cat : Category) (h : ty.inRange (s.count cat)) :
    (System.step true ty s c).bus.requests.count (BusRequest.disconnect cat.mceSignal) =
      s.bus.requests.count (BusRequest.disconnect cat.mceSignal) +
        (if s.count cat = 1 ∧ (System.step true ty s c).count cat = 0 then 1 else 0) := by
  rw [System.step_count]
  by_cases f : c.isFor cat = true
  · rw [System.step_requests_for true ty s c cat f, List.count_append]
    by_cases g : c.isConnect = true
    · simp only [f, g, if_true]
      have w : ¬ (s.count cat = 1 ∧ ty.wrap (s.count cat + 1) = 0) := by
        rintro ⟨e1, e2⟩
        rw [e1] at e2
        revert e2
        cases ty <;> simp [CountTy.wrap]
      rw [if_neg w]
      split_ifs <;> simp
    · have g2 : c.isConnect = false := by simpa using g
      simp only [f, g2, if_true, Bool.false_eq_true, if_false]
      have w := CountTy.wrap_pred_eq_zero ty (s.count cat) h
      by_cases y : ty.wrap (s.count cat - 1) = 0
      · rw [if_pos ⟨y, trivial⟩, if_pos ⟨w.mp y, y⟩]; simp
      · rw [if_neg (fun e => y e.1), if_neg (fun e => y e.2)]; simp
  · have f2 : c.isFor cat = false := by simpa using f
    obtain ⟨l, e, _, n2⟩ := System.step_requests_other true ty s c cat f2
    rw [e, List.count_append, List.count_eq_zero_of_not_mem n2]
    simp only [f2, Bool.false_eq_true, if_false]
    rw [if_neg (by omega)]

theorem System.run_request_counts (ty : CountTy) (cat : Category) (calls : List Call) :
    ∀ s : System, ty.inRange (s.count cat) →
      (System.run true ty s calls).bus.requests.count (BusRequest.connect cat.mceSignal) =
          s.bus.requests.count (BusRequest.connect cat.mceSignal) +
            transitions 0 1 (s.count cat :: System.countTrace true ty s cat calls) ∧
        (System.run true ty s calls).bus.requests.count (BusRequest.disconnect cat.mceSignal) =
          s.bus.requests.count (BusRequest.disconnect cat.mceSignal) +
            transitions 1 0 (s.count cat :: System.countTrace true ty s cat calls) := by
  induction calls with
  | nil => intro s _; simp [System.run, System.countTrace, transitions]
  | cons c rest ih =>
    intro s h
    obtain ⟨i1, i2⟩ :=
      ih (System.step true ty s c) (System.step_count_inRange true ty s c cat h)
    simp only [System.run, System.countTrace, transitions]
    rw [i1, i2, System.step_connect_requests, System.step_disconnect_requests ty s c cat h]
    constructor <;> omega

theorem System.step_eq_of_no_category (H : Bool) (ty : CountTy) (s : System) (c : Call)
    (h : ∀ cat, c.isFor cat = false) : System.step H ty s c = s := by
  rcases Call.trichotomy c with ⟨cat, e⟩ | ⟨cat, e⟩ | ⟨_, h2⟩
  · have t := h cat
    rw [e, Call.isFor_register] at t
    simp at t
  · have t := h cat
    rw [e, Call.isFor_deregister] at t
    simp at t
  · exact h2 H ty s

/-! ## The reference counts and the bus subscription (claims C1 to C4) -/

/-- C1, as stated, fails: with a `size_t` counter a single `disconnectNotify` on the display
state signal, made on the freshly constructed objects, wraps the count from 0 to the largest
value.  The count is then greater than 0 although nothing was ever subscribed. -/
theorem C1_unmatched_disconnect_breaks_iff :
    (System.run true CountTy.size_t32 System.init
        [Call.deregister Category.displayState true]).count Category.displayState
      = 4294967295 ∧
    (System.run true CountTy.size_t64 System.init
        [Call.deregister Category.displayState true]).count Category.displayState
      = 18446744073709551615 ∧
    (System.run true CountTy.size_t32 System.init
        [Call.deregister Category.displayState true]).subscribed Category.displayState
      = false ∧
    (System.run true CountTy.size_t32 System.init
        [Call.deregister Category.displayState true]).bus.requests = [] ∧
    ¬ ((System.run true CountTy.size_t32 System.init
          [Call.deregister Category.displayState true]).subscribed Category.displayState
        = true ↔
      0 < (System.run true CountTy.size_t32 System.init
          [Call.deregister Category.displayState true]).count Category.displayState) := by
  refine ⟨by decide, by decide, by decide, by decide, by decide⟩

/-- C1, amended: with the MCE backend compiled in, after every sequence of `connectNotify`
and `disconnectNotify` calls (on any of the objects, with any signals) during which the
counter of a category does not wrap around, the category is subscribed to its bus signal if
and only if its connection count is greater than 0.  Subscribed means that the object has
asked the bus for the signal and has not asked to drop it since; when every bus request
succeeds, the delivery of the signal is established on the bus under the same condition. -/
theorem C1_subscribed_iff_count_pos (ty : CountTy) (cat : Category) (calls : List Call)
    (h : noWrap ty cat calls = true) :
    ((System.run true ty System.init calls).subscribed cat = true ↔
        0 < (System.run true ty System.init calls).count cat) ∧
      (allOk calls = true →
        ((System.run true ty System.init calls).connected cat = true ↔
          0 < (System.run true ty System.init calls).count cat)) := by
  have z : System.init.count cat = 0 := by cases cat <;> rfl
  have hs : staysWithin ty.minVal ty.maxVal cat (System.init.count cat) calls = true := by
    rw [z]; exact h
  constructor
  · apply System.run_subscribed_iff ty cat calls System.init
    · cases cat <;> decide
    · exact hs
  · intro hok
    apply System.run_connected_iff ty cat calls System.init
    · cases cat <;> decide
    · exact hs
    · exact hok

/-- C1, amended, at a concrete input: two registrations and one deregistration of the display
state signal with a `size_t` counter. -/
theorem C1_subscribed_iff_count_pos_witness :
    noWrap CountTy.size_t32 Category.displayState
        [Call.register Category.displayState true, Call.register Category.displayState true,
          Call.deregister Category.displayState true] = true ∧
      ((System.run true CountTy.size_t32 System.init
          [Call.register Category.displayState true, Call.register Category.displayState true,
            Call.deregister Category.displayState true]).subscribed Category.displayState
        = true ↔
      0 < (System.run true CountTy.size_t32 System.init
          [Call.register Category.displayState true, Call.register Category.displayState true,
            Call.deregister Category.displayState true]).count Category.displayState) :=
  ⟨by decide, (C1_subscribed_iff_count_pos _ _ _ (by decide)).1⟩

/-- C2: with the MCE backend compiled in, `connectNotify` on the signal of a category makes
exactly one connect request when the count before the increment is 0 and none otherwise, and
`disconnectNotify` makes exactly one disconnect request when the count after the decrement
is 0 and none otherwise.  Over any sequence of calls, started in a state whose count is a
value of the counter type, the connect requests made for the category are as many as the
steps of its count from 0 to 1, and the disconnect requests as many as the steps from 1
to 0.  From the initial state, two registrations and two deregistrations of the display
state signal make the requests connect, disconnect, and the first three calls make the
connect request only. -/
theorem C2_requests_match_count_transitions (ty : CountTy) (cat : Category) (ok : Bool)
    (s : System) (calls : List Call) (h : ty.inRange (s.count cat)) :
    (System.step true ty s (Call.register cat ok)).bus.requests =
        s.bus.requests ++
          (if s.count cat = 0 then [BusRequest.connect cat.mceSignal] else []) ∧
      (System.step true ty s (Call.deregister cat ok)).bus.requests =
        s.bus.requests ++
          (if (System.step true ty s (Call.deregister cat ok)).count cat = 0 then
            [BusRequest.disconnect cat.mceSignal]
          else []) ∧
      (System.run true ty s calls).bus.requests.count (BusRequest.connect cat.mceSignal) =
        s.bus.requests.count (BusRequest.connect cat.mceSignal) +
          transitions 0 1 (s.count cat :: System.countTrace true ty s cat calls) ∧
      (System.run true ty s calls).bus.requests.count (BusRequest.disconnect cat.mceSignal) =
        s.bus.requests.count (BusRequest.disconnect cat.mceSignal) +
          transitions 1 0 (s.count cat :: System.countTrace true ty s cat calls) ∧
      (System.run true ty System.init
          [Call.register Category.displayState ok, Call.register Category.displayState ok,
            Call.deregister Category.displayState ok,
            Call.deregister Category.displayState ok]).bus.requests =
        [BusRequest.connect MceSignal.MCE_DISPLAY_SIG,
          BusRequest.disconnect MceSignal.MCE_DISPLAY_SIG] ∧
      (System.run true ty System.init
          [Call.register Category.displayState ok, Call.register Category.displayState ok,
            Call.deregister Category.displayState ok]).bus.requests =
        [BusRequest.connect MceSignal.MCE_DISPLAY_SIG] := by
  refine ⟨?_, ?_, (System.run_request_counts ty cat calls s h).1,
    (System.run_request_counts ty cat calls s h).2, ?_, ?_⟩
  · rw [System.step_requests_for true ty s _ cat (by rw [Call.isFor_register]; simp)]
    simp [Call.register]
  · rw [System.step_requests_for true ty s _ cat (by rw [Call.isFor_deregister]; simp),
      System.step_deregister_count]
    simp [Call.deregister]
  · cases ty <;> cases ok <;> decide
  · cases ty <;> cases ok <;> decide

/-- C2 at a concrete input: the initial state, the display state category, and two
registrations followed by two deregistrations. -/
theorem C2_requests_match_count_transitions_witness :
    CountTy.size_t32.inRange (System.init.count Category.displayState) ∧
      (System.run true CountTy.size_t32 System.init
          [Call.register Category.displayState true, Call.register Category.displayState true,
            Call.deregister Category.displayState true,
            Call.deregister Category.displayState true]).bus.requests.count
          (BusRequest.connect Category.displayState.mceSignal) =
        System.init.bus.requests.count (BusRequest.connect Category.displayState.mceSignal) +
          transitions 0 1
            (System.init.count Category.displayState ::
              System.countTrace true CountTy.size_t32 System.init Category.displayState
                [Call.register Category.displayState true,
                  Call.register Category.displayState true,
                  Call.deregister Category.displayState true,
                  Call.deregister Category.displayState true]) :=
  ⟨by decide,
    (C2_requests_match_count_transitions CountTy.size_t32 Category.displayState true
      System.init _ (by decide)).2.2.1⟩

/-- C3, as stated, fails: `disconnectNotify` on the display state signal at count 0 is
neither rejected nor clamped.  With an `int` counter the count becomes -1, and with a
`size_t` counter it wraps to the largest value; in no case does it stay 0. -/
theorem C3_disconnect_at_zero_unguarded :
    System.init.count Category.displayState = 0 ∧
    (System.step true CountTy.int System.init
        (Call.deregister Category.displayState true)).count Category.displayState = -1 ∧
    (System.step true CountTy.size_t32 System.init
        (Call.deregister Category.displayState true)).count Category.displayState
      = 4294967295 ∧
    (System.step true CountTy.size_t64 System.init
        (Call.deregister Category.displayState true)).count Category.displayState
      = 18446744073709551615 := by
  refine ⟨by decide, by decide, by decide, by decide⟩

/-- C3, amended: `disconnectNotify` has no guard, it stores the decremented count reduced to
the counter type whatever the count was, and at count 0 the stored value is not 0.  The
count of a category is at least 0, and equal to
registrations minus deregistrations, in every state reached from the initial state by a
sequence of calls in which the calls for the category are matched. -/
theorem C3_count_nonneg_when_matched (H : Bool) (ty : CountTy) (cat : Category) (ok : Bool)
    (s : System) (calls : List Call) (h : balanced ty cat calls = true) :
    (System.step H ty s (Call.deregister cat ok)).count cat = ty.wrap (s.count cat - 1) ∧
      (s.count cat = 0 → (System.step H ty s (Call.deregister cat ok)).count cat ≠ 0) ∧
      0 ≤ (System.run H ty System.init calls).count cat ∧
      (System.run H ty System.init calls).count cat = netCount cat calls := by
  have z : System.init.count cat = 0 := by cases cat <;> rfl
  have hb : staysWithin 0 ty.maxVal cat (System.init.count cat) calls = true := by
    rw [z]; exact h
  have e := System.run_count_of_staysWithin H ty cat 0 ty.maxVal (CountTy.minVal_nonpos ty)
    (le_refl _) calls System.init hb
  have n : ∀ (l : List Call) (b : Int), 0 ≤ b → staysWithin 0 ty.maxVal cat b l = true →
      0 ≤ b + netCount cat l := by
    intro l
    induction l with
    | nil => intro b hb0 _; simpa [netCount] using hb0
    | cons c rest ih =>
      intro b _ hs
      simp only [staysWithin, Bool.and_eq_true, decide_eq_true_eq] at hs
      have t := ih (b + c.delta cat) hs.1.1 hs.2
      simp only [netCount]
      omega
  have d : (System.step H ty s (Call.deregister cat ok)).count cat
      = ty.wrap (s.count cat - 1) := by
    rw [System.step_deregister_count]; simp
  refine ⟨d, ?_, ?_, ?_⟩
  · intro c0
    rw [d, c0]
    exact CountTy.wrap_neg_one_ne_zero ty
  · rw [e, z]; exact n calls 0 (le_refl _) h
  · rw [e, z]; simp

/-- C3, amended, at a concrete input: one registration and one deregistration of the PSM
state signal with an `int` counter. -/
theorem C3_count_nonneg_when_matched_witness :
    balanced CountTy.int Category.psmState
        [Call.register Category.psmState true, Call.deregister Category.psmState false]
      = true ∧
      0 ≤ (System.run true CountTy.int System.init
        [Call.register Category.psmState true,
          Call.deregister Category.psmState false]).count Category.psmState :=
  ⟨by decide,
    (C3_count_nonneg_when_matched true CountTy.int Category.psmState true System.init _
      (by decide)).2.2.1⟩

/-- C4, as stated, fails at the ends of the counter type.  With a `size_t` counter,
`disconnectNotify` on the display state signal in the initial state, count 0, leaves
4294967295 and not the count minus 1, whether the bus request would succeed or fail; the
`connectNotify` that follows, at the largest value, leaves 0 and not the count plus 1. -/
theorem C4_step_wraps_at_type_bounds :
    System.init.count Category.displayState = 0 ∧
    (System.step true CountTy.size_t32 System.init
        (Call.deregister Category.displayState true)).count Category.displayState
      = 4294967295 ∧
    (System.step true CountTy.size_t32 System.init
        (Call.deregister Category.displayState false)).count Category.displayState
      = 4294967295 ∧
    ¬ ((System.step true CountTy.size_t32 System.init
          (Call.deregister Category.displayState true)).count Category.displayState
        = System.init.count Category.displayState - 1) ∧
    (System.step true CountTy.size_t32
        (System.step true CountTy.size_t32 System.init
          (Call.deregister Category.displayState true))
        (Call.register Category.displayState true)).count Category.displayState = 0 ∧
    ¬ ((System.step true CountTy.size_t32
          (System.step true CountTy.size_t32 System.init
            (Call.deregister Category.displayState true))
          (Call.register Category.displayState true)).count Category.displayState
        = (System.step true CountTy.size_t32 System.init
            (Call.deregister Category.displayState true)).count Category.displayState + 1) := by
  refine ⟨by decide, by decide, by decide, by decide, by decide, by decide⟩

/-- C4, amended: the count of a category is updated whatever the outcome `ok` of the bus
request.  In every state whose count is a value of the counter type, `connectNotify` on the
signal of the category stores the count plus 1 reduced to the counter type, which is exactly
the count plus 1 when the count is below the largest value; `disconnectNotify` stores the
count minus 1 reduced to the counter type, which is exactly the count minus 1 when the
count is above the smallest value (at least 1 for `size_t`); and a `connectNotify` followed
by a `disconnectNotify` restores every count, for all four combinations of outcomes.  A call
whose signal matches no category of the object changes nothing and makes no request. -/
theorem C4_counts_ignore_bus_outcome (H : Bool) (ty : CountTy) (cat : Category)
    (ok ok2 : Bool) (s : System) (c : Call) (h : ty.inRange (s.count cat)) :
    (System.step H ty s (Call.register cat ok)).count cat = ty.wrap (s.count cat + 1) ∧
      (s.count cat < ty.maxVal →
        (System.step H ty s (Call.register cat ok)).count cat = s.count cat + 1) ∧
      (System.step H ty s (Call.deregister cat ok)).count cat = ty.wrap (s.count cat - 1) ∧
      (ty.minVal < s.count cat →
        (System.step H ty s (Call.deregister cat ok)).count cat = s.count cat - 1) ∧
      (System.step H ty (System.step H ty s (Call.register cat ok))
        (Call.deregister cat ok2)).count cat = s.count cat ∧
      ((∀ cat2, c.isFor cat2 = false) → System.step H ty s c = s) := by
  have r : (System.step H ty s (Call.register cat ok)).count cat = ty.wrap (s.count cat + 1) := by
    rw [System.step_register_count]; simp
  have d : ∀ t : System,
      (System.step H ty t (Call.deregister cat ok2)).count cat = ty.wrap (t.count cat - 1) := by
    intro t; rw [System.step_deregister_count]; simp
  have d1 : (System.step H ty s (Call.deregister cat ok)).count cat
      = ty.wrap (s.count cat - 1) := by
    rw [System.step_deregister_count]; simp
  refine ⟨r, ?_, d1, ?_, ?_, System.step_eq_of_no_category H ty s c⟩
  · intro lt
    rw [r]
    exact CountTy.wrap_of_inRange ty _ ⟨by have := h.1; omega, by omega⟩
  · intro lt
    rw [d1]
    exact CountTy.wrap_of_inRange ty _ ⟨by omega, by have := h.2; omega⟩
  · rw [d, r]
    exact CountTy.wrap_succ_pred ty _ h

/-- C4, amended, at a concrete input: the activity category in the initial state, a connect
request that fails, and a call on the activity object with a signal it does not have. -/
theorem C4_counts_ignore_bus_outcome_witness :
    CountTy.size_t64.inRange (System.init.count Category.activity) ∧
      (System.step true CountTy.size_t64
        (System.step true CountTy.size_t64 System.init (Call.register Category.activity false))
        (Call.deregister Category.activity true)).count Category.activity
        = System.init.count Category.activity :=
  ⟨by decide,
    (C4_counts_ignore_bus_outcome true CountTy.size_t64 Category.activity false true System.init
      { obj := Obj.qmActivity, isConnect := true, signal := "2destroyed()", ok := true }
      (by decide)).2.2.2.2.1⟩

/-! ## Queries and setters on the bus (claims C5 to C7) -/

theorem subscribedIn_append_call (sig : MceSignal) (log : List BusRequest) (m : MceMethod)
    (args : List Nat) :
    subscribedIn sig (log ++ [BusRequest.call m args]) = subscribedIn sig log :=
  subscribedIn_append_other sig log _ (by simp) (by simp)

/-- C5: with the MCE backend compiled in and the three display state strings pairwise
different, `QmDisplayState::get` on a valid reply with value `s` returns `Dimmed` when `s` is
the dim string, `On` when it is the on string, `Off` when it is the off string, and `Unknown`
for every other string; every string has a result. -/
theorem C5_get_translates_reply (names : MceDisplayNames) (s : String) (bus : SystemBus)
    (hdo : names.MCE_DISPLAY_DIM_STRING ≠ names.MCE_DISPLAY_ON_STRING)
    (hdf : names.MCE_DISPLAY_DIM_STRING ≠ names.MCE_DISPLAY_OFF_STRING)
    (hof : names.MCE_DISPLAY_ON_STRING ≠ names.MCE_DISPLAY_OFF_STRING) :
    (s = names.MCE_DISPLAY_DIM_STRING →
        (QmDisplayState.get true names (some s) bus).1 = DisplayState.Dimmed) ∧
      (s = names.MCE_DISPLAY_ON_STRING →
        (QmDisplayState.get true names (some s) bus).1 = DisplayState.On) ∧
      (s = names.MCE_DISPLAY_OFF_STRING →
        (QmDisplayState.get true names (some s) bus).1 = DisplayState.Off) ∧
      (s ≠ names.MCE_DISPLAY_DIM_STRING → s ≠ names.MCE_DISPLAY_ON_STRING →
        s ≠ names.MCE_DISPLAY_OFF_STRING →
        (QmDisplayState.get true names (some s) bus).1 = DisplayState.Unknown) := by
  refine ⟨?_, ?_, ?_, ?_⟩
  · intro e; simp [QmDisplayState.get, e]
  · intro e
    have n : ¬ names.MCE_DISPLAY_ON_STRING = names.MCE_DISPLAY_DIM_STRING := fun x => hdo x.symm
    simp [QmDisplayState.get, e, n]
  · intro e
    have n1 : ¬ names.MCE_DISPLAY_OFF_STRING = names.MCE_DISPLAY_DIM_STRING :=
      fun x => hdf x.symm
    have n2 : ¬ names.MCE_DISPLAY_OFF_STRING = names.MCE_DISPLAY_ON_STRING :=
      fun x => hof x.symm
    simp [QmDisplayState.get, e, n1, n2]
  · intro e1 e2 e3; simp [QmDisplayState.get, e1, e2, e3]

/-- C5 at a concrete input: the strings `dimmed`, `on` and `off`, and the replies `off` and
`garbage`. -/
theorem C5_get_translates_reply_witness :
    (QmDisplayState.get true
        { MCE_DISPLAY_DIM_STRING := "dimmed", MCE_DISPLAY_ON_STRING := "on",
          MCE_DISPLAY_OFF_STRING := "off" }
        (some "off") { connected := [], requests := [] }).1 = DisplayState.Off ∧
      (QmDisplayState.get true
        { MCE_DISPLAY_DIM_STRING := "dimmed", MCE_DISPLAY_ON_STRING := "on",
          MCE_DISPLAY_OFF_STRING := "off" }
        (some "garbage") { connected := [], requests := [] }).1 = DisplayState.Unknown :=
  ⟨(C5_get_translates_reply
      { MCE_DISPLAY_DIM_STRING := "dimmed", MCE_DISPLAY_ON_STRING := "on",
        MCE_DISPLAY_OFF_STRING := "off" }
      "off" { connected := [], requests := [] } (by decide) (by decide) (by decide)).2.2.1 rfl,
    (C5_get_translates_reply
      { MCE_DISPLAY_DIM_STRING := "dimmed", MCE_DISPLAY_ON_STRING := "on",
        MCE_DISPLAY_OFF_STRING := "off" }
      "garbage" { connected := [], requests := [] } (by decide) (by decide) (by decide)).2.2.2
      (by decide) (by decide) (by decide)⟩

/-- C6: when the reply to the one-shot fetch is not valid, `QmDisplayState::get` returns
`Unknown`, `QmDeviceMode::getMode` returns `Error` and `QmDeviceMode::getPSMState` returns
`PSMError`, in every state of the system and with or without the MCE backend; each of the
three calls leaves the connection count, the subscription and the established signal
deliveries of every category as they were. -/
theorem C6_failed_fetch_returns_error_variant (H : Bool) (names : MceDisplayNames)
    (radioStateToDeviceMode : Nat → DeviceMode) (psmStateToModeEnum : Bool → PSMState)
    (s : System) (cat : Category) :
    ((System.get H names none s).1 = DisplayState.Unknown ∧
        (System.get H names none s).2.count cat = s.count cat ∧
        (System.get H names none s).2.subscribed cat = s.subscribed cat ∧
        (System.get H names none s).2.bus.connected = s.bus.connected) ∧
      ((System.getMode H radioStateToDeviceMode none s).1 = DeviceMode.Error ∧
        (System.getMode H radioStateToDeviceMode none s).2.count cat = s.count cat ∧
        (System.getMode H radioStateToDeviceMode none s).2.subscribed cat = s.subscribed cat ∧
        (System.getMode H radioStateToDeviceMode none s).2.bus.connected = s.bus.connected) ∧
      ((System.getPSMState H psmStateToModeEnum none s).1 = PSMState.PSMError ∧
        (System.getPSMState H psmStateToModeEnum none s).2.count cat = s.count cat ∧
        (System.getPSMState H psmStateToModeEnum none s).2.subscribed cat = s.subscribed cat ∧
        (System.getPSMState H psmStateToModeEnum none s).2.bus.connected = s.bus.connected) := by
  cases H <;> cases cat <;>
    simp [System.get, System.getMode, System.getPSMState, QmDisplayState.get,
      QmDeviceMode.getMode, QmDeviceMode.getPSMState, System.count, System.subscribed,
      SystemBus.call, subscribedIn_append_call]

/-- C7: with the MCE backend compiled in, `QmDisplayState::set` returns true exactly for `Off`,
`Dimmed` and `On`, and then makes the one request `MCE_DISPLAY_OFF_REQ`,
`MCE_DISPLAY_DIM_REQ` or `MCE_DISPLAY_ON_REQ`; for `Unknown` it returns false and leaves the
bus as it was.  `QmDeviceMode::setMode` returns true exactly for `Normal` and `Flight`, and
then makes the one request `MCE_RADIO_STATES_CHANGE_REQ` with state 1 or 0 and the master
mask; for `Error` it returns false and leaves the bus as it was. -/
theorem C7_set_validates_enum (master : Nat) (state : DisplayState) (mode : DeviceMode)
    (bus : SystemBus) :
    (((QmDisplayState.set true state bus).1 = true ↔
          state = DisplayState.Off ∨ state = DisplayState.Dimmed ∨ state = DisplayState.On) ∧
        (QmDisplayState.set true DisplayState.Off bus).2.requests =
          bus.requests ++ [BusRequest.call MceMethod.MCE_DISPLAY_OFF_REQ []] ∧
        (QmDisplayState.set true DisplayState.Dimmed bus).2.requests =
          bus.requests ++ [BusRequest.call MceMethod.MCE_DISPLAY_DIM_REQ []] ∧
        (QmDisplayState.set true DisplayState.On bus).2.requests =
          bus.requests ++ [BusRequest.call MceMethod.MCE_DISPLAY_ON_REQ []] ∧
        QmDisplayState.set true DisplayState.Unknown bus = (false, bus)) ∧
      (((QmDeviceMode.setMode true master mode bus).1 = true ↔
          mode = DeviceMode.Normal ∨ mode = DeviceMode.Flight) ∧
        (QmDeviceMode.setMode true master DeviceMode.Normal bus).2.requests =
          bus.requests ++ [BusRequest.call MceMethod.MCE_RADIO_STATES_CHANGE_REQ [1, master]] ∧
        (QmDeviceMode.setMode true master DeviceMode.Flight bus).2.requests =
          bus.requests ++ [BusRequest.call MceMethod.MCE_RADIO_STATES_CHANGE_REQ [0, master]] ∧
        QmDeviceMode.setMode true master DeviceMode.Error bus = (false, bus)) := by
  refine ⟨⟨?_, rfl, rfl, rfl, rfl⟩, ⟨?_, rfl, rfl, rfl⟩⟩
  · cases state <;> simp [QmDisplayState.set]
  · cases mode <;> simp [QmDeviceMode.setMode]

/-! ## Setters on the settings store (claims C8 to C10) -/

theorem g_slist_index_ge (l : List Int) (data : Int) : -1 ≤ g_slist_index l data := by
  induction l with
  | nil => simp [g_slist_index]
  | cons x rest ih =>
    simp only [g_slist_index]
    split_ifs <;> omega

theorem g_slist_index_eq_neg_one (l : List Int) (data : Int) :
    g_slist_index l data = -1 ↔ data ∉ l := by
  induction l with
  | nil => simp [g_slist_index]
  | cons x rest ih =>
    have g := g_slist_index_ge rest data
    simp only [g_slist_index, List.mem_cons, not_or]
    by_cases e : x = data
    · simp [e]
    · have e2 : ¬ data = x := fun y => e y.symm
      by_cases i : g_slist_index rest data = -1
      · simp [e, e2, i, ih.mp i]
      · have m : ¬ data ∉ rest := fun y => i (ih.mpr y)
        simp only [e, e2, i, if_false, not_false_eq_true, true_and, m, iff_false]
        omega

theorem GConfClient.writes_noteGet (gc : GConfClient) (key : GConfKey) :
    (gc.noteGet key).writes = gc.writes := by
  simp [GConfClient.writes, GConfClient.noteGet, List.filter_append]

theorem GConfClient.writes_store (gc : GConfClient) (key : GConfKey) (value : GConfValue) :
    (gc.store key value).2.writes = gc.writes ++ [GConfAccess.set key value] := by
  unfold GConfClient.store
  split_ifs <;> simp [GConfClient.writes, List.filter_append]

theorem gconf_client_get_int_snd (gc : GConfClient) (key : GConfKey) :
    (gconf_client_get_int gc key).2 = gc.noteGet key := by
  unfold gconf_client_get_int
  split_ifs
  · rfl
  · split <;> rfl

theorem gconf_client_get_list_snd (gc : GConfClient) (key : GConfKey) :
    (gconf_client_get_list gc key).2 = gc.noteGet key := by
  unfold gconf_client_get_list
  split_ifs
  · rfl
  · split <;> rfl

/-- C8: for every percentage below 0 or above 100, `QmDeviceMode::setPSMBatteryMode` returns
false and leaves the private object, its settings store and the log of store accesses as
they were.  For percentage 0 it makes exactly one access to the store, the write of `FALSE`
under `ENABLE_POWER_SAVING`, and its result is the result of that write. -/
theorem C8_setPSMBatteryMode_rejects_out_of_range (p : Int) (priv : QmDeviceModePrivate)
    (h : p < 0 ∨ 100 < p) :
    QmDeviceMode.setPSMBatteryMode p priv = (false, priv) ∧
      (QmDeviceMode.setPSMBatteryMode 0 priv).2.gcClient.accesses =
        priv.gcClient.accesses ++
          [GConfAccess.set GConfKey.ENABLE_POWER_SAVING (GConfValue.bool false)] ∧
      (QmDeviceMode.setPSMBatteryMode 0 priv).1 =
        (gconf_client_set_bool priv.gcClient GConfKey.ENABLE_POWER_SAVING false).1 ∧
      (QmDeviceMode.setPSMBatteryMode 0 priv).2.gcClient =
        (gconf_client_set_bool priv.gcClient GConfKey.ENABLE_POWER_SAVING false).2 ∧
      ((QmDeviceMode.setPSMBatteryMode 0 priv).1 = true ↔
        GConfKey.ENABLE_POWER_SAVING ∉ priv.gcClient.writeErrors) := by
  refine ⟨?_, ?_, ?_, ?_, ?_⟩
  · have c : p < 0 ∨ p > 100 := h
    simp [QmDeviceMode.setPSMBatteryMode, c]
  · simp only [QmDeviceMode.setPSMBatteryMode, QmDeviceMode.writePSMBatteryMode,
      gconf_client_set_bool, GConfClient.store]
    split_ifs <;> simp_all
  · simp [QmDeviceMode.setPSMBatteryMode, QmDeviceMode.writePSMBatteryMode]
  · simp [QmDeviceMode.setPSMBatteryMode, QmDeviceMode.writePSMBatteryMode]
  · simp only [QmDeviceMode.setPSMBatteryMode, QmDeviceMode.writePSMBatteryMode,
      gconf_client_set_bool, GConfClient.store]
    split_ifs <;> simp_all

/-- C8 at a concrete input: percentage 101 on a store that holds a threshold list. -/
theorem C8_setPSMBatteryMode_rejects_out_of_range_witness :
    ((101 : Int) < 0 ∨ (100 : Int) < 101) ∧
      QmDeviceMode.setPSMBatteryMode 101
          { connectCount_DEVICE_MODE := 0, connectCount_PSM_MODE := 0,
            gcClient :=
              { entries := [(GConfKey.THRESHOLDS, GConfValue.list [10, 20, 50])],
                readErrors := [], writeErrors := [], accesses := [] } } =
        (false,
          { connectCount_DEVICE_MODE := 0, connectCount_PSM_MODE := 0,
            gcClient :=
              { entries := [(GConfKey.THRESHOLDS, GConfValue.list [10, 20, 50])],
                readErrors := [], writeErrors := [], accesses := [] } }) :=
  ⟨by decide, (C8_setPSMBatteryMode_rejects_out_of_range 101 _ (by decide)).1⟩

theorem GConfClient.entries_noteGet (gc : GConfClient) (key : GConfKey) :
    (gc.noteGet key).entries = gc.entries := rfl

/-- C9: `QmDisplayState::setDisplayBrightnessValue(b)` writes the brightness key if and only
if `1 <= b <= M`, where `M` is the result of `getMaxDisplayBrightnessValue()`: the integer
read under `MAX_BRIGHTNESS_KEY`, or -1 when that read reports an error.  The value written is
`b`; when nothing is written the stored entries are unchanged; when the read of the maximum
reports an error nothing is written for any `b`.  The connection count is never touched. -/
theorem C9_setDisplayBrightnessValue_range (b : Int) (priv : QmDisplayStatePrivate) :
    (QmDisplayState.setDisplayBrightnessValue b priv).gc.writes =
        priv.gc.writes ++
          (if 1 ≤ b ∧ b ≤ (QmDisplayState.getMaxDisplayBrightnessValue priv).1 then
            [GConfAccess.set GConfKey.BRIGHTNESS_KEY (GConfValue.int b)]
          else []) ∧
      (¬ (1 ≤ b ∧ b ≤ (QmDisplayState.getMaxDisplayBrightnessValue priv).1) →
        (QmDisplayState.setDisplayBrightnessValue b priv).gc.entries = priv.gc.entries) ∧
      ((QmDisplayState.getMaxDisplayBrightnessValue priv).1 =
        if (gconf_client_get_int priv.gc GConfKey.MAX_BRIGHTNESS_KEY).1.2 then -1
        else (gconf_client_get_int priv.gc GConfKey.MAX_BRIGHTNESS_KEY).1.1) ∧
      ((gconf_client_get_int priv.gc GConfKey.MAX_BRIGHTNESS_KEY).1.2 = true →
        (QmDisplayState.setDisplayBrightnessValue b priv).gc.writes = priv.gc.writes ∧
          (QmDisplayState.setDisplayBrightnessValue b priv).gc.entries = priv.gc.entries) ∧
      (QmDisplayState.setDisplayBrightnessValue b priv).connectCount = priv.connectCount := by
  have key : ∀ m : Int, (QmDisplayState.getMaxDisplayBrightnessValue priv).1 = m →
      (QmDisplayState.setDisplayBrightnessValue b priv).gc.writes =
          priv.gc.writes ++
            (if 1 ≤ b ∧ b ≤ m then
              [GConfAccess.set GConfKey.BRIGHTNESS_KEY (GConfValue.int b)]
            else []) ∧
        (¬ (1 ≤ b ∧ b ≤ m) →
          (QmDisplayState.setDisplayBrightnessValue b priv).gc.entries = priv.gc.entries) ∧
        (QmDisplayState.setDisplayBrightnessValue b priv).connectCount = priv.connectCount := by
    intro m hm
    unfold QmDisplayState.setDisplayBrightnessValue
    by_cases h1 : 1 > b
    · have n : ¬ (1 ≤ b ∧ b ≤ m) := by omega
      simp [h1, n]
    · simp only [h1, if_false, hm]
      by_cases h2 : b > m
      · have n : ¬ (1 ≤ b ∧ b ≤ m) := by omega
        simp [h2, n, QmDisplayState.getMaxDisplayBrightnessValue, gconf_client_get_int_snd,
          GConfClient.writes_noteGet, GConfClient.entries_noteGet]
      · have y : 1 ≤ b ∧ b ≤ m := by omega
        simp [h2, y, QmDisplayState.getMaxDisplayBrightnessValue, gconf_client_get_int_snd,
          gconf_client_set_int, GConfClient.writes_store, GConfClient.writes_noteGet]
  obtain ⟨k1, k2, k3⟩ := key _ rfl
  refine ⟨k1, k2, ?_, ?_, k3⟩
  · simp [QmDisplayState.getMaxDisplayBrightnessValue]
  · intro e
    have m1 : (QmDisplayState.getMaxDisplayBrightnessValue priv).1 = -1 := by
      simp [QmDisplayState.getMaxDisplayBrightnessValue, e]
    obtain ⟨j1, j2, _⟩ := key (-1) m1
    have n : ¬ (1 ≤ b ∧ b ≤ -1) := by omega
    exact ⟨by simpa [n] using j1, j2 n⟩

/-- C10: `QmDisplayState::setDisplayDimTimeout(t)` writes the dim timeout key if and only if
the read of the list of possible dim timeouts reports no error and `t` is an element of the
list.  The value written is `t`; in every other case (read error, empty list, `t` not in
the list) the stored entries are unchanged.  The connection count is never touched. -/
theorem C10_setDisplayDimTimeout_membership (t : Int) (priv : QmDisplayStatePrivate) :
    (QmDisplayState.setDisplayDimTimeout t priv).gc.writes =
        priv.gc.writes ++
          (if (gconf_client_get_list priv.gc GConfKey.POSSIBLE_DIM_LIST_KEY).1.2 = false ∧
              t ∈ (gconf_client_get_list priv.gc GConfKey.POSSIBLE_DIM_LIST_KEY).1.1 then
            [GConfAccess.set GConfKey.DIM_TIMEOUT_KEY (GConfValue.int t)]
          else []) ∧
      (¬ ((gconf_client_get_list priv.gc GConfKey.POSSIBLE_DIM_LIST_KEY).1.2 = false ∧
            t ∈ (gconf_client_get_list priv.gc GConfKey.POSSIBLE_DIM_LIST_KEY).1.1) →
        (QmDisplayState.setDisplayDimTimeout t priv).gc.entries = priv.gc.entries) ∧
      (QmDisplayState.setDisplayDimTimeout t priv).connectCount = priv.connectCount := by
  unfold QmDisplayState.setDisplayDimTimeout
  by_cases e : (gconf_client_get_list priv.gc GConfKey.POSSIBLE_DIM_LIST_KEY).1.2 = true
  · simp [e, gconf_client_get_list_snd, GConfClient.writes_noteGet,
      GConfClient.entries_noteGet]
  · have e2 : (gconf_client_get_list priv.gc GConfKey.POSSIBLE_DIM_LIST_KEY).1.2 = false := by
      simpa using e
    by_cases i : g_slist_index
        (gconf_client_get_list priv.gc GConfKey.POSSIBLE_DIM_LIST_KEY).1.1 t = -1
    · have m := (g_slist_index_eq_neg_one _ _).mp i
      simp [e2, i, m, gconf_client_get_list_snd, GConfClient.writes_noteGet,
        GConfClient.entries_noteGet]
    · have m : t ∈ (gconf_client_get_list priv.gc GConfKey.POSSIBLE_DIM_LIST_KEY).1.1 := by
        by_contra x
        exact i ((g_slist_index_eq_neg_one _ _).mpr x)
      simp [e2, i, m, gconf_client_get_list_snd, gconf_client_set_int,
        GConfClient.writes_store, GConfClient.writes_noteGet]

/-! ## The PSM battery mode (claims C11 and C12) -/

theorem QmDeviceMode.selectThreshold_eq (p : Int) (l : List Int) :
    QmDeviceMode.selectThreshold p l = firstAtLeastOrLast p l := by
  induction l with
  | nil => rfl
  | cons d next ih =>
    unfold QmDeviceMode.selectThreshold firstAtLeastOrLast
    by_cases h : p ≤ d
    · simp [h]
    · cases next with
      | nil => simp [h]
      | cons e rest =>
        have ih2 := ih
        unfold firstAtLeastOrLast at ih2
        simp only [h, false_or, List.find?_cons, decide_False, List.getLast?_cons_cons]
        simpa using ih2

theorem QmDeviceMode.selectThreshold_mem (p : Int) (l : List Int) (h : l ≠ []) :
    QmDeviceMode.selectThreshold p l ∈ l := by
  induction l with
  | nil => exact absurd rfl h
  | cons d next ih =>
    unfold QmDeviceMode.selectThreshold
    by_cases c : p ≤ d ∨ next = []
    · simp [c]
    · have n : next ≠ [] := fun e => c (Or.inr e)
      simp only [c, if_false]
      exact List.mem_cons_of_mem _ (ih n)

theorem QmDeviceMode.selectThreshold_ge (p : Int) (l : List Int)
    (h : ∃ d ∈ l, p ≤ d) : p ≤ QmDeviceMode.selectThreshold p l := by
  induction l with
  | nil => obtain ⟨d, m, _⟩ := h; simp at m
  | cons x next ih =>
    unfold QmDeviceMode.selectThreshold
    by_cases c : p ≤ x
    · simp [c]
    · obtain ⟨d, m, hd⟩ := h
      have m2 : d ∈ next := by
        rcases List.mem_cons.mp m with e | e
        · exact absurd (e ▸ hd) c
        · exact e
      have n : next ≠ [] := List.ne_nil_of_mem m2
      simp only [c, n, or_self, if_false]
      exact ih ⟨d, m2, hd⟩

theorem QmDeviceMode.selectThreshold_le_of_sorted (p : Int) (l : List Int)
    (hs : l.Pairwise (fun a b => a ≤ b)) :
    ∀ d ∈ l, p ≤ d → QmDeviceMode.selectThreshold p l ≤ d := by
  induction l with
  | nil => intro d m; simp at m
  | cons x next ih =>
    intro d m hd
    have hs2 := List.pairwise_cons.mp hs
    unfold QmDeviceMode.selectThreshold
    by_cases c : p ≤ x
    · simp only [c, true_or, if_true]
      rcases List.mem_cons.mp m with e | e
      · omega
      · exact hs2.1 d e
    · have m2 : d ∈ next := by
        rcases List.mem_cons.mp m with e | e
        · exact absurd (e ▸ hd) c
        · exact e
      have n : next ≠ [] := List.ne_nil_of_mem m2
      simp only [c, n, or_self, if_false]
      exact ih hs2.2 d m2 hd

theorem QmDeviceMode.selectThreshold_max_of_sorted (p : Int) (l : List Int)
    (hs : l.Pairwise (fun a b => a ≤ b)) (hlt : ∀ d ∈ l, d < p) :
    ∀ d ∈ l, d ≤ QmDeviceMode.selectThreshold p l := by
  induction l with
  | nil => intro d m; simp at m
  | cons x next ih =>
    intro d m
    have hs2 := List.pairwise_cons.mp hs
    have c : ¬ p ≤ x := by have := hlt x (List.mem_cons_self _ _); omega
    unfold QmDeviceMode.selectThreshold
    by_cases n : next = []
    · subst n
      simp only [c, or_true, if_true]
      rcases List.mem_cons.mp m with e | e
      · omega
      · simp at e
    · simp only [c, n, or_self, if_false]
      have rec := ih hs2.2 (fun e he => hlt e (List.mem_cons_of_mem _ he))
      rcases List.mem_cons.mp m with e | e
      · have mm := QmDeviceMode.selectThreshold_mem p next n
        have := hs2.1 _ mm
        omega
      · exact rec d e

theorem GConfClient.store_fst (gc : GConfClient) (key : GConfKey) (value : GConfValue) :
    ((gc.store key value).1 = true ↔ key ∉ gc.writeErrors) := by
  unfold GConfClient.store
  split_ifs with h <;> simp [h]

theorem GConfClient.store_accesses (gc : GConfClient) (key : GConfKey) (value : GConfValue) :
    (gc.store key value).2.accesses = gc.accesses ++ [GConfAccess.set key value] := by
  unfold GConfClient.store
  split_ifs <;> rfl

theorem GConfClient.store_writeErrors (gc : GConfClient) (key : GConfKey) (value : GConfValue) :
    (gc.store key value).2.writeErrors = gc.writeErrors := by
  unfold GConfClient.store
  split_ifs <;> rfl

theorem GConfClient.store_readErrors (gc : GConfClient) (key : GConfKey) (value : GConfValue) :
    (gc.store key value).2.readErrors = gc.readErrors := by
  unfold GConfClient.store
  split_ifs <;> rfl

theorem GConfClient.store_entries (gc : GConfClient) (key : GConfKey) (value : GConfValue)
    (h : (gc.store key value).1 = true) :
    (gc.store key value).2.entries = (key, value) :: gc.entries := by
  have n := (GConfClient.store_fst gc key value).mp h
  simp [GConfClient.store, n]

theorem QmDeviceMode.writePSMBatteryMode_zero (gc : GConfClient) :
    QmDeviceMode.writePSMBatteryMode 0 gc =
      gc.store GConfKey.ENABLE_POWER_SAVING (GConfValue.bool false) := by
  simp [QmDeviceMode.writePSMBatteryMode, gconf_client_set_bool]

theorem QmDeviceMode.writePSMBatteryMode_accesses (v : Int) (gc : GConfClient) (hv : v ≠ 0) :
    (QmDeviceMode.writePSMBatteryMode v gc).2.accesses =
      gc.accesses ++ [GConfAccess.set GConfKey.ENABLE_POWER_SAVING (GConfValue.bool true)] ++
        (if GConfKey.ENABLE_POWER_SAVING ∈ gc.writeErrors then []
          else [GConfAccess.set GConfKey.THRESHOLD (GConfValue.int v)]) := by
  unfold QmDeviceMode.writePSMBatteryMode
  simp only [hv, if_false, gconf_client_set_bool, gconf_client_set_int]
  by_cases e : GConfKey.ENABLE_POWER_SAVING ∈ gc.writeErrors
  · have f : ¬ (gc.store GConfKey.ENABLE_POWER_SAVING (GConfValue.bool true)).1 = true :=
      fun x => (GConfClient.store_fst _ _ _).mp x e
    simp only [f, if_false, e, if_true, List.append_nil]
    exact GConfClient.store_accesses _ _ _
  · have t : (gc.store GConfKey.ENABLE_POWER_SAVING (GConfValue.bool true)).1 = true :=
      (GConfClient.store_fst _ _ _).mpr e
    simp only [t, if_true, e, if_false]
    rw [GConfClient.store_accesses, GConfClient.store_accesses]

theorem QmDeviceMode.writePSMBatteryMode_fst (v : Int) (gc : GConfClient) (hv : v ≠ 0) :
    ((QmDeviceMode.writePSMBatteryMode v gc).1 = true ↔
      GConfKey.ENABLE_POWER_SAVING ∉ gc.writeErrors ∧
        GConfKey.THRESHOLD ∉ gc.writeErrors) := by
  unfold QmDeviceMode.writePSMBatteryMode
  simp only [hv, if_false, gconf_client_set_bool, gconf_client_set_int]
  by_cases e : GConfKey.ENABLE_POWER_SAVING ∈ gc.writeErrors
  · have f : ¬ (gc.store GConfKey.ENABLE_POWER_SAVING (GConfValue.bool true)).1 = true :=
      fun x => (GConfClient.store_fst _ _ _).mp x e
    simp [f, e]
  · have t : (gc.store GConfKey.ENABLE_POWER_SAVING (GConfValue.bool true)).1 = true :=
      (GConfClient.store_fst _ _ _).mpr e
    simp only [t, if_true, e, not_false_eq_true, true_and]
    rw [GConfClient.store_fst, GConfClient.store_writeErrors]

theorem QmDeviceMode.writePSMBatteryMode_entries (v : Int) (gc : GConfClient) (hv : v ≠ 0)
    (h : (QmDeviceMode.writePSMBatteryMode v gc).1 = true) :
    (QmDeviceMode.writePSMBatteryMode v gc).2.entries =
      (GConfKey.THRESHOLD, GConfValue.int v) ::
        (GConfKey.ENABLE_POWER_SAVING, GConfValue.bool true) :: gc.entries := by
  have w := (QmDeviceMode.writePSMBatteryMode_fst v gc hv).mp h
  have t : (gc.store GConfKey.ENABLE_POWER_SAVING (GConfValue.bool true)).1 = true :=
    (GConfClient.store_fst _ _ _).mpr w.1
  have t2 : ((gc.store GConfKey.ENABLE_POWER_SAVING (GConfValue.bool true)).2.store
      GConfKey.THRESHOLD (GConfValue.int v)).1 = true := by
    rw [GConfClient.store_fst, GConfClient.store_writeErrors]; exact w.2
  unfold QmDeviceMode.writePSMBatteryMode
  simp only [hv, if_false, gconf_client_set_bool, gconf_client_set_int, t, if_true]
  rw [GConfClient.store_entries _ _ _ t2, GConfClient.store_entries _ _ _ t]

theorem QmDeviceMode.writePSMBatteryMode_readErrors (v : Int) (gc : GConfClient) :
    (QmDeviceMode.writePSMBatteryMode v gc).2.readErrors = gc.readErrors := by
  unfold QmDeviceMode.writePSMBatteryMode
  simp only [gconf_client_set_bool, gconf_client_set_int]
  split_ifs <;> simp [GConfClient.store_readErrors]

theorem QmDeviceMode.setPSMBatteryMode_pos (p : Int) (priv : QmDeviceModePrivate)
    (h1 : 1 ≤ p) (h2 : p ≤ 100) :
    QmDeviceMode.setPSMBatteryMode p priv =
      if (gconf_client_get_list priv.gcClient GConfKey.THRESHOLDS).1.1 = [] then
        (false, { priv with gcClient := priv.gcClient.noteGet GConfKey.THRESHOLDS })
      else
        ((QmDeviceMode.writePSMBatteryMode
            (QmDeviceMode.selectThreshold p
              (gconf_client_get_list priv.gcClient GConfKey.THRESHOLDS).1.1)
            (priv.gcClient.noteGet GConfKey.THRESHOLDS)).1,
          { priv with
            gcClient :=
              (QmDeviceMode.writePSMBatteryMode
                (QmDeviceMode.selectThreshold p
                  (gconf_client_get_list priv.gcClient GConfKey.THRESHOLDS).1.1)
                (priv.gcClient.noteGet GConfKey.THRESHOLDS)).2 }) := by
  have a : ¬ (p < 0 ∨ p > 100) := by omega
  have b : p > 0 := by omega
  simp only [QmDeviceMode.setPSMBatteryMode, a, b, if_false, if_true, gconf_client_get_list_snd]

/-- C11: for `1 <= p <= 100` and the threshold list `L` read from the store,
`QmDeviceMode::setPSMBatteryMode(p)` works with `v`, the first element of `L` that is at
least `p`, or the last element of `L` when there is none.  On a non-empty `L`: if `v` is not
0 it writes `TRUE` under `ENABLE_POWER_SAVING` and then, unless that write failed, `v` under
`THRESHOLD`, and returns true exactly when both writes succeed; if `v` is 0 it writes `FALSE`
under `ENABLE_POWER_SAVING` as its only write and returns the result of that write.  On an
empty `L` it returns false and writes nothing.  For `L` sorted ascending, `v` is the smallest
element at least `p` when there is one, and the largest element otherwise. -/
theorem C11_setPSMBatteryMode_selects_threshold (p : Int) (priv : QmDeviceModePrivate)
    (L : List Int) (h1 : 1 ≤ p) (h2 : p ≤ 100)
    (hL : (gconf_client_get_list priv.gcClient GConfKey.THRESHOLDS).1.1 = L) :
    (L = [] →
        (QmDeviceMode.setPSMBatteryMode p priv).1 = false ∧
          (QmDeviceMode.setPSMBatteryMode p priv).2.gcClient.accesses =
            priv.gcClient.accesses ++ [GConfAccess.get GConfKey.THRESHOLDS] ∧
          (QmDeviceMode.setPSMBatteryMode p priv).2.gcClient.entries = priv.gcClient.entries) ∧
      (L ≠ [] → firstAtLeastOrLast p L ≠ 0 →
        (QmDeviceMode.setPSMBatteryMode p priv).2.gcClient.accesses =
            priv.gcClient.accesses ++
              [GConfAccess.get GConfKey.THRESHOLDS,
                GConfAccess.set GConfKey.ENABLE_POWER_SAVING (GConfValue.bool true)] ++
              (if GConfKey.ENABLE_POWER_SAVING ∈ priv.gcClient.writeErrors then []
                else
                  [GConfAccess.set GConfKey.THRESHOLD
                    (GConfValue.int (firstAtLeastOrLast p L))]) ∧
          ((QmDeviceMode.setPSMBatteryMode p priv).1 = true ↔
            GConfKey.ENABLE_POWER_SAVING ∉ priv.gcClient.writeErrors ∧
              GConfKey.THRESHOLD ∉ priv.gcClient.writeErrors)) ∧
      (L ≠ [] → firstAtLeastOrLast p L = 0 →
        (QmDeviceMode.setPSMBatteryMode p priv).2.gcClient.accesses =
            priv.gcClient.accesses ++
              [GConfAccess.get GConfKey.THRESHOLDS,
                GConfAccess.set GConfKey.ENABLE_POWER_SAVING (GConfValue.bool false)] ∧
          ((QmDeviceMode.setPSMBatteryMode p priv).1 = true ↔
            GConfKey.ENABLE_POWER_SAVING ∉ priv.gcClient.writeErrors)) ∧
      (L.Pairwise (fun a b => a ≤ b) →
        ((∃ d ∈ L, p ≤ d) →
          firstAtLeastOrLast p L ∈ L ∧ p ≤ firstAtLeastOrLast p L ∧
            ∀ d ∈ L, p ≤ d → firstAtLeastOrLast p L ≤ d) ∧
        (L ≠ [] → (∀ d ∈ L, d < p) →
          firstAtLeastOrLast p L ∈ L ∧ ∀ d ∈ L, d ≤ firstAtLeastOrLast p L)) := by
  have hset := QmDeviceMode.setPSMBatteryMode_pos p priv h1 h2
  rw [hL] at hset
  have hsel := QmDeviceMode.selectThreshold_eq p L
  refine ⟨?_, ?_, ?_, ?_⟩
  · intro e
    rw [hset]
    simp [e, GConfClient.noteGet]
  · intro ne hv
    rw [hset, if_neg ne, hsel]
    refine ⟨?_, ?_⟩
    · simp only [QmDeviceMode.writePSMBatteryMode_accesses _ _ hv]
      simp [GConfClient.noteGet]
    · simp only [QmDeviceMode.writePSMBatteryMode_fst _ _ hv]
      simp [GConfClient.noteGet]
  · intro ne hv
    rw [hset, if_neg ne, hsel, hv, QmDeviceMode.writePSMBatteryMode_zero]
    refine ⟨?_, ?_⟩
    · simp only [GConfClient.store_accesses]
      simp [GConfClient.noteGet]
    · simp only [GConfClient.store_fst]
      simp [GConfClient.noteGet]
  · intro hs
    rw [← hsel]
    refine ⟨?_, ?_⟩
    · intro ex
      have ne : L ≠ [] := by
        obtain ⟨d, m, _⟩ := ex
        exact List.ne_nil_of_mem m
      exact ⟨QmDeviceMode.selectThreshold_mem p L ne,
        QmDeviceMode.selectThreshold_ge p L ex,
        QmDeviceMode.selectThreshold_le_of_sorted p L hs⟩
    · intro ne hlt
      exact ⟨QmDeviceMode.selectThreshold_mem p L ne,
        QmDeviceMode.selectThreshold_max_of_sorted p L hs hlt⟩

/-- C11 at a concrete input: percentage 15 on a store whose threshold list is 10, 20, 50 and
whose writes succeed; the threshold 20 is written. -/
theorem C11_setPSMBatteryMode_selects_threshold_witness :
    (1 : Int) ≤ 15 ∧ (15 : Int) ≤ 100 ∧
      firstAtLeastOrLast 15 [10, 20, 50] = 20 ∧
      (QmDeviceMode.setPSMBatteryMode 15
          { connectCount_DEVICE_MODE := 0, connectCount_PSM_MODE := 0,
            gcClient :=
              { entries := [(GConfKey.THRESHOLDS, GConfValue.list [10, 20, 50])],
                readErrors := [], writeErrors := [], accesses := [] } }).2.gcClient.accesses =
        [] ++
          [GConfAccess.get GConfKey.THRESHOLDS,
            GConfAccess.set GConfKey.ENABLE_POWER_SAVING (GConfValue.bool true)] ++
          (if GConfKey.ENABLE_POWER_SAVING ∈ ([] : List GConfKey) then []
            else
              [GConfAccess.set GConfKey.THRESHOLD
                (GConfValue.int (firstAtLeastOrLast 15 [10, 20, 50]))]) :=
  ⟨by decide, by decide, by decide,
    ((C11_setPSMBatteryMode_selects_threshold 15
        { connectCount_DEVICE_MODE := 0, connectCount_PSM_MODE := 0,
          gcClient :=
            { entries := [(GConfKey.THRESHOLDS, GConfValue.list [10, 20, 50])],
              readErrors := [], writeErrors := [], accesses := [] } }
        [10, 20, 50] (by decide) (by decide) (by decide)).2.1 (by decide) (by decide)).1⟩

theorem gconf_client_get_int_noteGet (gc : GConfClient) (k key : GConfKey) :
    (gconf_client_get_int (gc.noteGet k) key).1 = (gconf_client_get_int gc key).1 := by
  unfold gconf_client_get_int
  simp only [GConfClient.noteGet]
  split_ifs
  · rfl
  · split <;> rfl

theorem gconf_client_get_bool_snd (gc : GConfClient) (key : GConfKey) :
    (gconf_client_get_bool gc key).2 = gc.noteGet key := by
  unfold gconf_client_get_bool
  split_ifs
  · rfl
  · split <;> rfl

theorem QmDeviceMode.getPSMBatteryMode_fst (q : QmDeviceModePrivate) :
    (QmDeviceMode.getPSMBatteryMode q).1 =
      if (gconf_client_get_bool q.gcClient GConfKey.ENABLE_POWER_SAVING).1.2 = true then -1
      else if (gconf_client_get_bool q.gcClient GConfKey.ENABLE_POWER_SAVING).1.1 = false then 0
      else if (gconf_client_get_int q.gcClient GConfKey.THRESHOLD).1.2 = true then -1
      else (gconf_client_get_int q.gcClient GConfKey.THRESHOLD).1.1 := by
  unfold QmDeviceMode.getPSMBatteryMode
  simp only [gconf_client_get_bool_snd, gconf_client_get_int_noteGet]
  split_ifs <;> rfl

theorem QmDeviceMode.getPSMBatteryMode_disabled (q : QmDeviceModePrivate)
    (rest : List (GConfKey × GConfValue))
    (hE : GConfKey.ENABLE_POWER_SAVING ∉ q.gcClient.readErrors)
    (he : q.gcClient.entries =
      (GConfKey.ENABLE_POWER_SAVING, GConfValue.bool false) :: rest) :
    (QmDeviceMode.getPSMBatteryMode q).1 = 0 := by
  rw [QmDeviceMode.getPSMBatteryMode_fst]
  simp [gconf_client_get_bool, hE, he, List.lookup]

theorem QmDeviceMode.getPSMBatteryMode_enabled (q : QmDeviceModePrivate) (v : Int)
    (rest : List (GConfKey × GConfValue))
    (hE : GConfKey.ENABLE_POWER_SAVING ∉ q.gcClient.readErrors)
    (hT : GConfKey.THRESHOLD ∉ q.gcClient.readErrors)
    (he : q.gcClient.entries =
      (GConfKey.THRESHOLD, GConfValue.int v) ::
        (GConfKey.ENABLE_POWER_SAVING, GConfValue.bool true) :: rest) :
    (QmDeviceMode.getPSMBatteryMode q).1 = v := by
  rw [QmDeviceMode.getPSMBatteryMode_fst]
  have k : (GConfKey.ENABLE_POWER_SAVING == GConfKey.THRESHOLD) = false := by decide
  simp [gconf_client_get_bool, gconf_client_get_int, hE, hT, he, List.lookup, k]

theorem QmDeviceMode.getPSMBatteryMode_after_write (v : Int) (priv : QmDeviceModePrivate)
    (gc : GConfClient)
    (hE : GConfKey.ENABLE_POWER_SAVING ∉ gc.readErrors)
    (hT : GConfKey.THRESHOLD ∉ gc.readErrors)
    (hw : (QmDeviceMode.writePSMBatteryMode v gc).1 = true) :
    (QmDeviceMode.getPSMBatteryMode
      { priv with gcClient := (QmDeviceMode.writePSMBatteryMode v gc).2 }).1 = v := by
  by_cases hv : v = 0
  · subst hv
    rw [QmDeviceMode.writePSMBatteryMode_zero] at hw ⊢
    exact QmDeviceMode.getPSMBatteryMode_disabled _ gc.entries
      (by simpa [GConfClient.store_readErrors] using hE)
      (by simpa using GConfClient.store_entries _ _ _ hw)
  · exact QmDeviceMode.getPSMBatteryMode_enabled _ v gc.entries
      (by simpa [QmDeviceMode.writePSMBatteryMode_readErrors] using hE)
      (by simpa [QmDeviceMode.writePSMBatteryMode_readErrors] using hT)
      (by simpa using QmDeviceMode.writePSMBatteryMode_entries v gc hv hw)

theorem QmDeviceMode.getPSMBatteryMode_after_set (p : Int) (priv : QmDeviceModePrivate)
    (hE : GConfKey.ENABLE_POWER_SAVING ∉ priv.gcClient.readErrors)
    (hT : GConfKey.THRESHOLD ∉ priv.gcClient.readErrors)
    (hset : (QmDeviceMode.setPSMBatteryMode p priv).1 = true) :
    (QmDeviceMode.getPSMBatteryMode (QmDeviceMode.setPSMBatteryMode p priv).2).1 =
      if p = 0 then 0
      else firstAtLeastOrLast p (gconf_client_get_list priv.gcClient GConfKey.THRESHOLDS).1.1 := by
  by_cases r : p < 0 ∨ p > 100
  · simp [QmDeviceMode.setPSMBatteryMode, r] at hset
  · by_cases z : p = 0
    · subst z
      have e : QmDeviceMode.setPSMBatteryMode 0 priv =
          ((QmDeviceMode.writePSMBatteryMode 0 priv.gcClient).1,
            { priv with gcClient := (QmDeviceMode.writePSMBatteryMode 0 priv.gcClient).2 }) := by
        simp [QmDeviceMode.setPSMBatteryMode]
      rw [e] at hset ⊢
      simpa using QmDeviceMode.getPSMBatteryMode_after_write 0 priv priv.gcClient hE hT hset
    · have e := QmDeviceMode.setPSMBatteryMode_pos p priv (by omega) (by omega)
      rw [e] at hset ⊢
      by_cases l : (gconf_client_get_list priv.gcClient GConfKey.THRESHOLDS).1.1 = []
      · simp [l] at hset
      · simp only [l, if_false] at hset ⊢
        simp only [z, if_false, ← QmDeviceMode.selectThreshold_eq]
        exact QmDeviceMode.getPSMBatteryMode_after_write _ priv _ hE hT hset

/-- C12, as stated, fails: on a store whose reads report no error, with power saving enabled
and the threshold -1 stored, `QmDeviceMode::getPSMBatteryMode` returns -1.  Such a store is
reached by `setPSMBatteryMode(5)` on the threshold list that holds -1 alone: the call returns
true, the following `getPSMBatteryMode` returns -1, and no read reports an error. -/
theorem C12_minus_one_without_read_error :
    (QmDeviceMode.getPSMBatteryMode
        { connectCount_DEVICE_MODE := 0, connectCount_PSM_MODE := 0,
          gcClient :=
            { entries :=
                [(GConfKey.THRESHOLD, GConfValue.int (-1)),
                  (GConfKey.ENABLE_POWER_SAVING, GConfValue.bool true)],
              readErrors := [], writeErrors := [], accesses := [] } }).1 = -1 ∧
      (gconf_client_get_bool
        { entries :=
            [(GConfKey.THRESHOLD, GConfValue.int (-1)),
              (GConfKey.ENABLE_POWER_SAVING, GConfValue.bool true)],
          readErrors := [], writeErrors := [], accesses := [] }
        GConfKey.ENABLE_POWER_SAVING).1 = (true, false) ∧
      (gconf_client_get_int
        { entries :=
            [(GConfKey.THRESHOLD, GConfValue.int (-1)),
              (GConfKey.ENABLE_POWER_SAVING, GConfValue.bool true)],
          readErrors := [], writeErrors := [], accesses := [] }
        GConfKey.THRESHOLD).1 = (-1, false) ∧
      (QmDeviceMode.setPSMBatteryMode 5
        { connectCount_DEVICE_MODE := 0, connectCount_PSM_MODE := 0,
          gcClient :=
            { entries := [(GConfKey.THRESHOLDS, GConfValue.list [-1])],
              readErrors := [], writeErrors := [], accesses := [] } }).1 = true ∧
      (QmDeviceMode.getPSMBatteryMode
        (QmDeviceMode.setPSMBatteryMode 5
          { connectCount_DEVICE_MODE := 0, connectCount_PSM_MODE := 0,
            gcClient :=
              { entries := [(GConfKey.THRESHOLDS, GConfValue.list [-1])],
                readErrors := [], writeErrors := [], accesses := [] } }).2).1 = -1 := by
  refine ⟨by decide, by decide, by decide, by decide, by decide⟩

/-- C12, amended: when the reads of `ENABLE_POWER_SAVING` and `THRESHOLD` do not fail and
`QmDeviceMode::setPSMBatteryMode(p)` returns true, a following `getPSMBatteryMode()` returns 0
when `p` is 0 and otherwise the threshold selected for `p`, the first element of the threshold
list that is at least `p`, or its last element.  On every store, `getPSMBatteryMode` returns
-1 when one of its reads reports an error, and otherwise only when power saving is enabled
and the stored threshold is -1 itself; it returns 0 whenever the read of the enable flag
reports no error and power saving is disabled, whatever threshold is stored. -/
theorem C12_battery_mode_round_trip (p : Int) (priv q : QmDeviceModePrivate)
    (hE : GConfKey.ENABLE_POWER_SAVING ∉ priv.gcClient.readErrors)
    (hT : GConfKey.THRESHOLD ∉ priv.gcClient.readErrors)
    (hset : (QmDeviceMode.setPSMBatteryMode p priv).1 = true) :
    (QmDeviceMode.getPSMBatteryMode (QmDeviceMode.setPSMBatteryMode p priv).2).1 =
        (if p = 0 then 0
          else
            firstAtLeastOrLast p
              (gconf_client_get_list priv.gcClient GConfKey.THRESHOLDS).1.1) ∧
      ((QmDeviceMode.getPSMBatteryMode q).1 = -1 ↔
        (gconf_client_get_bool q.gcClient GConfKey.ENABLE_POWER_SAVING).1.2 = true ∨
          ((gconf_client_get_bool q.gcClient GConfKey.ENABLE_POWER_SAVING).1.2 = false ∧
            (gconf_client_get_bool q.gcClient GConfKey.ENABLE_POWER_SAVING).1.1 = true ∧
            ((gconf_client_get_int q.gcClient GConfKey.THRESHOLD).1.2 = true ∨
              (gconf_client_get_int q.gcClient GConfKey.THRESHOLD).1.1 = -1))) ∧
      ((gconf_client_get_bool q.gcClient GConfKey.ENABLE_POWER_SAVING).1.2 = false →
        (gconf_client_get_bool q.gcClient GConfKey.ENABLE_POWER_SAVING).1.1 = false →
        (QmDeviceMode.getPSMBatteryMode q).1 = 0) := by
  refine ⟨QmDeviceMode.getPSMBatteryMode_after_set p priv hE hT hset, ?_, ?_⟩
  · rw [QmDeviceMode.getPSMBatteryMode_fst]
    split_ifs with a b c <;> simp_all
  · intro a b
    rw [QmDeviceMode.getPSMBatteryMode_fst]
    simp [a, b]

/-- C12, amended, at a concrete input: percentage 60 on a store whose threshold list is 10,
20, 50 and whose accesses succeed; the last threshold, 50, comes back. -/
theorem C12_battery_mode_round_trip_witness :
    (QmDeviceMode.setPSMBatteryMode 60
        { connectCount_DEVICE_MODE := 0, connectCount_PSM_MODE := 0,
          gcClient :=
            { entries := [(GConfKey.THRESHOLDS, GConfValue.list [10, 20, 50])],
              readErrors := [], writeErrors := [], accesses := [] } }).1 = true ∧
      (QmDeviceMode.getPSMBatteryMode
        (QmDeviceMode.setPSMBatteryMode 60
          { connectCount_DEVICE_MODE := 0, connectCount_PSM_MODE := 0,
            gcClient :=
              { entries := [(GConfKey.THRESHOLDS, GConfValue.list [10, 20, 50])],
                readErrors := [], writeErrors := [], accesses := [] } }).2).1 = 50 :=
  ⟨by decide,
    ((C12_battery_mode_round_trip 60
        { connectCount_DEVICE_MODE := 0, connectCount_PSM_MODE := 0,
          gcClient :=
            { entries := [(GConfKey.THRESHOLDS, GConfValue.list [10, 20, 50])],
              readErrors := [], writeErrors := [], accesses := [] } }
        { connectCount_DEVICE_MODE := 0, connectCount_PSM_MODE := 0,
          gcClient := GConfClient.empty }
        (by decide) (by decide) (by decide)).1).trans (by decide)⟩

/-! ## The activity query (claim C13) -/

/-- C13: with the MCE backend compiled in, `QmActivity::get` returns `Active` if and only if
the inactivity status reply is not empty and its first value, read with `toBool`, is false;
for a boolean first value `b` it returns `Active` exactly when `b` is false.  In every other
case it returns `Inactive`: the empty reply of a failed fetch gives the same result as a
reply that reports inactivity.  The call leaves the connection count, the subscription and
the established signal deliveries of every category as they were. -/
theorem C13_activity_get_first_value (H : Bool) (results rest : List QVariant) (b : Bool)
    (s : System) (cat : Category) :
    ((System.activityGet true results s).1 = Activity.Active ↔
        ∃ first tail, results = first :: tail ∧ first.toBool = false) ∧
      ((System.activityGet true results s).1 ≠ Activity.Active →
        (System.activityGet true results s).1 = Activity.Inactive) ∧
      ((System.activityGet true (QVariant.bool b :: rest) s).1 = Activity.Active ↔ b = false) ∧
      (System.activityGet true [] s).1 = Activity.Inactive ∧
      (System.activityGet true [] s).1 =
        (System.activityGet true (QVariant.bool true :: rest) s).1 ∧
      (System.activityGet H results s).2.count cat = s.count cat ∧
      (System.activityGet H results s).2.subscribed cat = s.subscribed cat ∧
      (System.activityGet H results s).2.bus.connected = s.bus.connected := by
  refine ⟨?_, ?_, ?_, rfl, rfl, ?_, ?_, ?_⟩
  · cases results with
    | nil => simp [System.activityGet, QmActivity.get]
    | cons first tail =>
      by_cases t : first.toBool = true
      · simp [System.activityGet, QmActivity.get, t]
      · have t2 : first.toBool = false := by simpa using t
        simp [System.activityGet, QmActivity.get, t2]
  · intro h
    cases e : (System.activityGet true results s).1 with
    | Inactive => rfl
    | Active => exact absurd e h
  · cases b <;> simp [System.activityGet, QmActivity.get, QVariant.toBool]
  · cases H <;> cases cat <;> cases results <;>
      simp [System.activityGet, QmActivity.get, System.count]
  · have k : ∀ x : Activity × SystemBus,
        (x.2 = s.bus ∨ x.2 = s.bus.call MceMethod.MCE_INACTIVITY_STATUS_GET []) →
        subscribedIn cat.mceSignal x.2.requests = subscribedIn cat.mceSignal s.bus.requests := by
      intro x hx
      rcases hx with e | e
      · rw [e]
      · rw [e]; exact subscribedIn_append_call _ _ _ _
    apply k
    cases H
    · left; rfl
    · right
      cases results with
      | nil => rfl
      | cons first tail => simp only [QmActivity.get]; split_ifs <;> rfl
  · cases H
    · rfl
    · cases results with
      | nil => rfl
      | cons first tail =>
        simp only [System.activityGet, QmActivity.get]
        split_ifs <;> rfl

end MeeGo
